import Mathlib

/-!
# Calibration driver (`src/core/Benchmark.cpp`)

A shallow embedding of `xmrig::Benchmark` and a verification of its stated properties.

Modelling conventions.

* `float` values are modelled by exact rationals (`ℚ`): rounding is outside the model.
* `uint64_t` values are natural numbers; the increment of the counter and the subtraction of
  two time stamps are reduced modulo `2^64` as the machine does.
* C arrays are total functions on their index type; only the indices below the array bound
  belong to the array.
* The header `core/Benchmark.h`, the class `Algorithm`, the configuration and the miner are not
  part of the translated file. What `Benchmark.cpp` uses of them (enumerator values, the
  table `ba2a`, `shortName()`, name resolution, `benchAlgoTime()`, `algorithms()`) is a
  parameter, collected in `Env`.
* Calls to collaborators (`JobResults::setListener`, `Miner::setJob`, `Miner::pause`,
  `Controller::start`, the network listener) are recorded, in order, in an event list, as are
  the entries into `start(bench_algo)` and `finish()`. `LOG_ALERT` lines are not modelled.
-/

namespace xmrig

/-! ## Parameters taken from the headers -/

/-- Values of the `Algorithm::Id` enumerators that `Benchmark.cpp` names, and `Algorithm::MAX`. -/
structure AlgorithmIds where
  CN_0 : Nat
  CN_1 : Nat
  CN_2 : Nat
  CN_R : Nat
  CN_WOW : Nat
  CN_FAST : Nat
  CN_HALF : Nat
  CN_XAO : Nat
  CN_RTO : Nat
  CN_RWZ : Nat
  CN_ZLS : Nat
  CN_DOUBLE : Nat
  CN_GPU : Nat
  CN_LITE_0 : Nat
  CN_LITE_1 : Nat
  CN_HEAVY_0 : Nat
  CN_HEAVY_TUBE : Nat
  CN_HEAVY_XHV : Nat
  CN_PICO_0 : Nat
  RX_LOKI : Nat
  RX_WOW : Nat
  DEFYX : Nat
  AR2_CHUKWA : Nat
  AR2_WRKZ : Nat
  MAX : Nat

/-- Values of the `Benchmark::BenchAlgo` enumerators that `Benchmark.cpp` names. -/
structure BenchAlgos where
  CN_R : Int
  CN_GPU : Int
  CN_LITE_1 : Int
  CN_HEAVY_TUBE : Int
  CN_PICO_0 : Int
  RX_LOKI : Int
  RX_WOW : Int
  DEFYX : Int
  AR2_CHUKWA : Int
  AR2_WRKZ : Int
  MIN : Int
  MAX : Int
  INVALID : Int

/-- Everything `Benchmark.cpp` reads from outside itself.
`parse name` stands for `Algorithm(name)`: `none` when `isValid()` is false, `some i` when the
resulting object has `id() = i`. An `Algorithm` object is represented by its id. -/
structure Env where
  A : AlgorithmIds
  B : BenchAlgos
  ba2a : Int → Nat
  shortName : Nat → String
  parse : String → Option Nat
  benchAlgoTime : Int
  algorithms : List Nat

/-! ## Data -/

/-- The fields of `Job` that the driver sets. -/
structure Job where
  nicehash : Bool
  algorithm : Nat
  clientId : String
  id : String
  blob : String
  target : String
  seedHash : String
deriving DecidableEq

/-- The fields of `JobResult` that the driver reads. -/
structure JobResult where
  clientId : String
  jobId : String
  diff : Nat
deriving DecidableEq

/-- The two completion-signal endpoints that `JobResults::setListener` is given. -/
inductive Listener where
  | benchmark
  | network
deriving DecidableEq

/-- Observable calls, in the order they are made. -/
inductive Event where
  | setListener (l : Listener)
  | enterStart (bench_algo : Int)
  | setJob (job : Job) (flag : Bool)
  | enterFinish
  | minerPause
  | controllerStart
  | networkOnJobResult (result : JobResult)
deriving DecidableEq

/-- A `rapidjson::Value`. A number is held either as an integer or as a double. -/
inductive JsonValue where
  | null
  | bool (b : Bool)
  | string (s : String)
  | integer (i : Int)
  | double (d : ℚ)
  | array (items : List JsonValue)
  | object (members : List (String × JsonValue))

/-- The data members of `Benchmark` (and the profile `algo_perf`). -/
structure Benchmark where
  m_isNewBenchRun : Bool
  m_bench_algo : Int
  m_hash_count : Nat
  m_time_start : Nat
  m_bench_job : Int → Job
  m_bench_algo_perf : Int → ℚ
  algo_perf : Nat → ℚ

/-- The driver together with the process-wide listener registration and the call record. -/
structure System where
  bench : Benchmark
  listener : Listener
  events : List Event

/-! ## rapidjson number tests -/

/-- The bound used by `rapidjson::Value::IsFloat`, `3.4028234e38`. -/
def floatBound : ℚ := 34028234 * 10 ^ 31

/-- `Value::IsFloat()`: the value is held as a double and lies in the single-precision range. -/
def JsonValue.IsFloat : JsonValue → Bool
  | .double d => decide (-floatBound ≤ d) && decide (d ≤ floatBound)
  | _ => false

/-- `Value::GetFloat()`. -/
def JsonValue.GetFloat : JsonValue → ℚ
  | .double d => d
  | _ => 0

/-- `Value::IsInt()`: the value is held as an integer that fits a 32-bit signed `int`. -/
def JsonValue.IsInt : JsonValue → Bool
  | .integer i => decide (-2147483648 ≤ i) && decide (i ≤ 2147483647)
  | _ => false

/-- `Value::GetInt()`. -/
def JsonValue.GetInt : JsonValue → Int
  | .integer i => i
  | _ => 0

/-- `Value::IsNumber()`. -/
def JsonValue.IsNumber : JsonValue → Bool
  | .integer _ => true
  | .double _ => true
  | _ => false

/-! ## The functions of `Benchmark.cpp` -/

/-- `Benchmark::Benchmark()`: the flag is set and one job per benchmark algorithm is created;
the other members keep whatever `uninit` holds. -/
def Benchmark.ctor (E : Env) (uninit : Benchmark) : Benchmark :=
  { uninit with
    m_isNewBenchRun := true
    m_bench_job := (List.range E.B.MAX.toNat).foldl
      (fun jobs (n : Nat) => Function.update jobs (n : Int)
        { nicehash := false, algorithm := E.ba2a n, clientId := "benchmark",
          id := "", blob := "", target := "", seedHash := "" })
      uninit.m_bench_job }

/-- `Benchmark::get_algo_perf`. -/
def get_algo_perf (A : AlgorithmIds) (B : BenchAlgos) (m_bench_algo_perf : Int → ℚ)
    (algo : Nat) : ℚ :=
  if algo = A.CN_0 then m_bench_algo_perf B.CN_R
  else if algo = A.CN_1 then m_bench_algo_perf B.CN_R
  else if algo = A.CN_2 then m_bench_algo_perf B.CN_R
  else if algo = A.CN_R then m_bench_algo_perf B.CN_R
  else if algo = A.CN_WOW then m_bench_algo_perf B.CN_R
  else if algo = A.CN_FAST then m_bench_algo_perf B.CN_R * 2
  else if algo = A.CN_HALF then m_bench_algo_perf B.CN_R * 2
  else if algo = A.CN_XAO then m_bench_algo_perf B.CN_R
  else if algo = A.CN_RTO then m_bench_algo_perf B.CN_R
  else if algo = A.CN_RWZ then m_bench_algo_perf B.CN_R / 3 * 4
  else if algo = A.CN_ZLS then m_bench_algo_perf B.CN_R / 3 * 4
  else if algo = A.CN_DOUBLE then m_bench_algo_perf B.CN_R / 2
  else if algo = A.CN_GPU then m_bench_algo_perf B.CN_GPU
  else if algo = A.CN_LITE_0 then m_bench_algo_perf B.CN_LITE_1
  else if algo = A.CN_LITE_1 then m_bench_algo_perf B.CN_LITE_1
  else if algo = A.CN_HEAVY_0 then m_bench_algo_perf B.CN_HEAVY_TUBE
  else if algo = A.CN_HEAVY_TUBE then m_bench_algo_perf B.CN_HEAVY_TUBE
  else if algo = A.CN_HEAVY_XHV then m_bench_algo_perf B.CN_HEAVY_TUBE
  else if algo = A.CN_PICO_0 then m_bench_algo_perf B.CN_PICO_0
  else if algo = A.RX_LOKI then m_bench_algo_perf B.RX_LOKI
  else if algo = A.RX_WOW then m_bench_algo_perf B.RX_WOW
  else if algo = A.DEFYX then m_bench_algo_perf B.DEFYX
  else if algo = A.AR2_CHUKWA then m_bench_algo_perf B.AR2_CHUKWA
  else if algo = A.AR2_WRKZ then m_bench_algo_perf B.AR2_WRKZ
  else 0

/-- `Benchmark::finish`. -/
def finish (E : Env) (s : System) : System :=
  { bench :=
      { s.bench with
        algo_perf := (List.range E.A.MAX).foldl
          (fun perf algo =>
            Function.update perf algo (get_algo_perf E.A E.B s.bench.m_bench_algo_perf algo))
          s.bench.algo_perf
        m_bench_algo := E.B.INVALID }
    listener := Listener.network
    events := s.events ++
      [Event.enterFinish, Event.minerPause, Event.setListener Listener.network,
        Event.controllerStart] }

/-- `Benchmark::toJSON`: one member per algorithm of the miner, the stored float as a double. -/
def toJSON (E : Env) (b : Benchmark) : JsonValue :=
  JsonValue.object (E.algorithms.map (fun a => (E.shortName a, JsonValue.double (b.algo_perf a))))

/-- The body of the member loop of `Benchmark::read`. -/
def readMember (E : Env) (b : Benchmark) (member : String × JsonValue) : Benchmark :=
  match E.parse member.1 with
  | none => b
  | some id =>
    if member.2.IsFloat then
      { b with
        algo_perf := Function.update b.algo_perf id member.2.GetFloat
        m_isNewBenchRun := false }
    else if member.2.IsInt then
      { b with
        algo_perf := Function.update b.algo_perf id (member.2.GetInt : ℚ)
        m_isNewBenchRun := false }
    else b

/-- `Benchmark::read`. -/
def read (E : Env) (value : JsonValue) (b : Benchmark) : Benchmark :=
  let b0 : Benchmark :=
    { b with
      algo_perf := (List.range E.A.MAX).foldl
        (fun perf algo => Function.update perf algo 0) b.algo_perf }
  match value with
  | .object members => members.foldl (readMember E) b0
  | _ => b0

/-- The blob given to `Job::setBlob`. -/
def benchBlob : String :=
  "9905A0DBD6BF05CF16E503F3A66F78007CBF34144332ECBFC22ED95C8700383B309ACE1923A0964B00000008BA939A62724C0D7581FCE5761E9D8A0E6A1C3F924FDD8493D1115649C05EB601"

/-- The target given to `Job::setTarget`. -/
def benchTarget : String := "FFFFFFFFFFFFFF20"

/-- The seed hash given to `Job::setSeedHash`. -/
def benchSeedHash : String :=
  "0000000000000000000000000000000000000000000000000000000000000001"

/-- `Benchmark::start(const BenchAlgo bench_algo)`. -/
def start_bench_algo (E : Env) (bench_algo : Int) (s : System) : System :=
  let job : Job :=
    { s.bench.m_bench_job bench_algo with
      id := E.shortName (E.ba2a bench_algo)
      blob := benchBlob
      target := benchTarget
      seedHash := benchSeedHash }
  { bench :=
      { s.bench with
        m_bench_job := Function.update s.bench.m_bench_job bench_algo job
        m_bench_algo := bench_algo
        m_hash_count := 0
        m_time_start := 0 }
    listener := s.listener
    events := s.events ++ [Event.enterStart bench_algo, Event.setJob job false] }

/-- `Benchmark::start()`. -/
def start (E : Env) (s : System) : System :=
  start_bench_algo E E.B.MIN
    { s with
      listener := Listener.benchmark
      events := s.events ++ [Event.setListener Listener.benchmark] }

/-- The right-hand side of the round-end test:
`static_cast<unsigned>(benchAlgoTime()*1000)`. -/
def roundLimit (E : Env) : Nat := ((E.benchAlgoTime * 1000) % 2 ^ 32).toNat

/-- The unsigned 64-bit difference `now - m_time_start`. -/
def elapsed (now m_time_start : Nat) : Nat := (now + 2 ^ 64 - m_time_start) % 2 ^ 64

/-- The expression assigned to `hashrate` at the end of a round. -/
def hashrate (m_hash_count diff elapsed_ms : Nat) : ℚ :=
  (m_hash_count : ℚ) * (diff : ℚ) / (elapsed_ms : ℚ) * 1000

/-- `Benchmark::onJobResult`, with the value returned by `get_now()` as the argument `now`. -/
def onJobResult (E : Env) (now : Nat) (result : JobResult) (s : System) : System :=
  if result.clientId ≠ "benchmark" then
    { s with
      listener := Listener.network
      events := s.events ++
        [Event.setListener Listener.network, Event.networkOnJobResult result] }
  else if s.bench.m_bench_algo = E.B.INVALID ∨
      result.jobId ≠ E.shortName (E.ba2a s.bench.m_bench_algo) then s
  else
    let count := (s.bench.m_hash_count + 1) % 2 ^ 64
    let s1 : System := { s with bench := { s.bench with m_hash_count := count } }
    if s.bench.m_time_start = 0 then
      { s1 with bench := { s1.bench with m_time_start := now } }
    else if elapsed now s.bench.m_time_start > roundLimit E then
      let s2 : System :=
        { s1 with
          bench :=
            { s1.bench with
              m_bench_algo_perf :=
                Function.update s1.bench.m_bench_algo_perf s.bench.m_bench_algo
                  (hashrate count result.diff (elapsed now s.bench.m_time_start)) } }
      let next_bench_algo := s.bench.m_bench_algo + 1
      if next_bench_algo ≠ E.B.MAX then start_bench_algo E next_bench_algo s2
      else finish E s2
    else s1

/-- Delivery of one completion signal by `JobResults` to the registered listener. The network
listener is outside this file: a signal it receives is recorded and nothing else changes. -/
def deliver (E : Env) (s : System) (signal : Nat × JobResult) : System :=
  match s.listener with
  | Listener.benchmark => onJobResult E signal.1 signal.2 s
  | Listener.network => { s with events := s.events ++ [Event.networkOnJobResult signal.2] }

/-- The driver's `onJobResult` applied to a sequence of signals, each with its clock reading. -/
def runSignals (E : Env) (s : System) (signals : List (Nat × JobResult)) : System :=
  signals.foldl (fun st sig => onJobResult E sig.1 sig.2 st) s

/-! ## Branch conditions of `onJobResult` -/

/-- The signal passes both tests of `onJobResult` and is counted: it carries the client
identity "benchmark", a round is active, and its job identity is the short name of the current
round. -/
def Counted (E : Env) (result : JobResult) (s : System) : Prop :=
  result.clientId = "benchmark" ∧ s.bench.m_bench_algo ≠ E.B.INVALID ∧
    result.jobId = E.shortName (E.ba2a s.bench.m_bench_algo)

instance (E : Env) (result : JobResult) (s : System) : Decidable (Counted E result s) := by
  unfold Counted
  infer_instance

/-- The state after the statements of `onJobResult` up to and including the assignment to
`m_bench_algo_perf[m_bench_algo]` at a round end. -/
def roundStored (now : Nat) (result : JobResult) (s : System) : System :=
  { s with
    bench :=
      { s.bench with
        m_hash_count := (s.bench.m_hash_count + 1) % 2 ^ 64
        m_bench_algo_perf :=
          Function.update s.bench.m_bench_algo_perf s.bench.m_bench_algo
            (hashrate ((s.bench.m_hash_count + 1) % 2 ^ 64) result.diff
              (elapsed now s.bench.m_time_start)) } }

/-- The signal meets the round-end test of `onJobResult`: it is counted, the start time is set
and the elapsed time exceeds the limit. -/
def EndsRound (E : Env) (now : Nat) (result : JobResult) (s : System) : Prop :=
  Counted E result s ∧ s.bench.m_time_start ≠ 0 ∧
    elapsed now s.bench.m_time_start > roundLimit E

instance (E : Env) (now : Nat) (result : JobResult) (s : System) :
    Decidable (EndsRound E now result s) := by
  unfold EndsRound
  infer_instance

/-- The indices with which `onJobResult`, and the `start(bench_algo)` it calls, subscript the
arrays `ba2a`, `m_bench_algo_perf` and `m_bench_job` for the given signal and state: none
before the two tests pass the client identity and `INVALID`, the current benchmark algorithm
from the job-identity test on, and the next one when `start(next_bench_algo)` is called. -/
def arrayIndices (E : Env) (now : Nat) (result : JobResult) (s : System) : List Int :=
  if result.clientId ≠ "benchmark" then []
  else if s.bench.m_bench_algo = E.B.INVALID then []
  else if result.jobId ≠ E.shortName (E.ba2a s.bench.m_bench_algo) then [s.bench.m_bench_algo]
  else if s.bench.m_time_start = 0 then [s.bench.m_bench_algo]
  else if elapsed now s.bench.m_time_start > roundLimit E then
    if s.bench.m_bench_algo + 1 ≠ E.B.MAX then
      [s.bench.m_bench_algo, s.bench.m_bench_algo + 1]
    else [s.bench.m_bench_algo]
  else [s.bench.m_bench_algo]

/-- The signals of the list that pass both tests of `onJobResult` in the round of the
current benchmark algorithm of `s`. -/
def acceptedSignals (E : Env) (s : System) (signals : List (Nat × JobResult)) :
    List (Nat × JobResult) :=
  signals.filter (fun sig => decide (Counted E sig.2 s))

/-- The clock reading of the first signal of the list, 0 for the empty list. -/
def firstTime (signals : List (Nat × JobResult)) : Nat :=
  match signals with
  | [] => 0
  | sig :: _ => sig.1

/-- No signal of the list, handed to `onJobResult` in turn from state `s`, meets the
round-end test: the round that is active in `s` is still active after them. -/
def roundStaysOpen (E : Env) : System → List (Nat × JobResult) → Bool
  | _, [] => true
  | s, sig :: rest =>
    !decide (EndsRound E sig.1 sig.2 s) && roundStaysOpen E (onJobResult E sig.1 sig.2 s) rest

/-! ## Reading a persisted profile: which entries `read` accepts -/

/-- The entry passes the tests of the loop body of `read`: its name is a valid algorithm and
its value passes `IsFloat()` or `IsInt()`. -/
def accepted (E : Env) (member : String × JsonValue) : Bool :=
  (E.parse member.1).isSome && (member.2.IsFloat || member.2.IsInt)

/-- The number that an accepted entry stores: `GetFloat()` when `IsFloat()`, else `GetInt()`. -/
def memberValue (member : String × JsonValue) : ℚ :=
  if member.2.IsFloat then member.2.GetFloat else (member.2.GetInt : ℚ)

/-- Some entry of the list is accepted. -/
def anyAccepted (E : Env) (members : List (String × JsonValue)) : Bool :=
  members.any (accepted E)

/-- The value of the last accepted entry of the list whose name resolves to `v`, if any. -/
def lastAccepted (E : Env) : List (String × JsonValue) → Nat → Option ℚ
  | [], _ => none
  | member :: rest, v =>
    match lastAccepted E rest v with
    | some x => some x
    | none =>
      if accepted E member = true ∧ E.parse member.1 = some v then some (memberValue member)
      else none

/-- The members of a JSON object; no members for any other value. -/
def JsonValue.members : JsonValue → List (String × JsonValue)
  | .object ms => ms
  | _ => []

/-! ## The switch of `get_algo_perf` -/

/-- The case labels of the switch of `get_algo_perf`, in source order. -/
def caseLabels (A : AlgorithmIds) : List Nat :=
  [A.CN_0, A.CN_1, A.CN_2, A.CN_R, A.CN_WOW, A.CN_FAST, A.CN_HALF, A.CN_XAO, A.CN_RTO,
    A.CN_RWZ, A.CN_ZLS, A.CN_DOUBLE, A.CN_GPU, A.CN_LITE_0, A.CN_LITE_1, A.CN_HEAVY_0,
    A.CN_HEAVY_TUBE, A.CN_HEAVY_XHV, A.CN_PICO_0, A.RX_LOKI, A.RX_WOW, A.DEFYX, A.AR2_CHUKWA,
    A.AR2_WRKZ]

/-- The representative of each benchmark algorithm is the variant of the same name. -/
def SameNameRepresentatives (E : Env) : Prop :=
  E.ba2a E.B.CN_R = E.A.CN_R ∧ E.ba2a E.B.CN_GPU = E.A.CN_GPU ∧
  E.ba2a E.B.CN_LITE_1 = E.A.CN_LITE_1 ∧ E.ba2a E.B.CN_HEAVY_TUBE = E.A.CN_HEAVY_TUBE ∧
  E.ba2a E.B.CN_PICO_0 = E.A.CN_PICO_0 ∧ E.ba2a E.B.RX_LOKI = E.A.RX_LOKI ∧
  E.ba2a E.B.RX_WOW = E.A.RX_WOW ∧ E.ba2a E.B.DEFYX = E.A.DEFYX ∧
  E.ba2a E.B.AR2_CHUKWA = E.A.AR2_CHUKWA ∧ E.ba2a E.B.AR2_WRKZ = E.A.AR2_WRKZ

instance (E : Env) : Decidable (SameNameRepresentatives E) := by
  unfold SameNameRepresentatives
  infer_instance

/-- The multipliers that occur in the switch of `get_algo_perf`, and 0 for its default. -/
def IsTableScale (x : ℚ) : Prop := x = 1 ∨ x = 2 ∨ x = 4 / 3 ∨ x = 1 / 2 ∨ x = 0

/-! ## Reading the call record -/

/-- The arguments of the recorded calls of `start(bench_algo)`, in call order. -/
def startedAlgos (events : List Event) : List Int :=
  events.filterMap (fun e => match e with
    | Event.enterStart b => some b
    | _ => none)

/-- The first `k` benchmark algorithms in enumeration order: `MIN, MIN+1, ..., MIN+k-1`. -/
def enumeration (E : Env) (k : Nat) : List Int :=
  (List.range k).map (fun (i : Nat) => E.B.MIN + (i : Int))

/-- A run of the calibration: `start()` on a system with an empty call record, followed by the
given completion signals handed to `onJobResult`. -/
def calibrationRun (E : Env) (s0 : System) (signals : List (Nat × JobResult)) : System :=
  runSignals E (start E { s0 with events := [] }) signals

/-- The state of the round sequence, as the call record shows it: either `k` rounds have been
started, in enumeration order, the current one being the last of them, and `finish()` has not
been called; or every round was started, `finish()` was called once after them, and the driver
is inactive. -/
def SequencingInv (E : Env) (s : System) : Prop :=
  (∃ k : Nat, 1 ≤ k ∧ s.bench.m_bench_algo = E.B.MIN + (k : Int) - 1 ∧
      s.bench.m_bench_algo < E.B.MAX ∧ startedAlgos s.events = enumeration E k ∧
      Event.enterFinish ∉ s.events) ∨
  (s.bench.m_bench_algo = E.B.INVALID ∧ ∃ pre post : List Event,
      s.events = pre ++ Event.enterFinish :: post ∧
      startedAlgos pre = enumeration E (E.B.MAX - E.B.MIN).toNat ∧
      startedAlgos post = [] ∧ Event.enterFinish ∉ post)

/-- Delivery of a sequence of completion signals, each to the listener registered at the time. -/
def deliverAll (E : Env) (s : System) (signals : List (Nat × JobResult)) : System :=
  signals.foldl (deliver E) s

/-! ## A concrete configuration

The enumerators numbered in declaration order, with one algorithm (`rx/0`, id 19) that
`get_algo_perf` does not name. It is used to evaluate the definitions on concrete inputs. -/

/-- Sample values for the `Algorithm::Id` enumerators. -/
def sampleIds : AlgorithmIds :=
  { CN_0 := 0, CN_1 := 1, CN_2 := 2, CN_R := 3, CN_WOW := 4, CN_FAST := 5, CN_HALF := 6,
    CN_XAO := 7, CN_RTO := 8, CN_RWZ := 9, CN_ZLS := 10, CN_DOUBLE := 11, CN_GPU := 12,
    CN_LITE_0 := 13, CN_LITE_1 := 14, CN_HEAVY_0 := 15, CN_HEAVY_TUBE := 16,
    CN_HEAVY_XHV := 17, CN_PICO_0 := 18, RX_WOW := 20, RX_LOKI := 21, DEFYX := 22,
    AR2_CHUKWA := 23, AR2_WRKZ := 24, MAX := 25 }

/-- Sample values for the `BenchAlgo` enumerators. -/
def sampleBench : BenchAlgos :=
  { CN_R := 0, CN_GPU := 1, CN_LITE_1 := 2, CN_HEAVY_TUBE := 3, CN_PICO_0 := 4, RX_LOKI := 5,
    RX_WOW := 6, DEFYX := 7, AR2_CHUKWA := 8, AR2_WRKZ := 9, MIN := 0, MAX := 10,
    INVALID := -1 }

/-- Sample short names, indexed by algorithm id. -/
def sampleNames : List String :=
  ["cn/0", "cn/1", "cn/2", "cn/r", "cn/wow", "cn/fast", "cn/half", "cn/xao", "cn/rto",
    "cn/rwz", "cn/zls", "cn/double", "cn/gpu", "cn-lite/0", "cn-lite/1", "cn-heavy/0",
    "cn-heavy/tube", "cn-heavy/xhv", "cn-pico", "rx/0", "rx/wow", "rx/loki", "defyx",
    "argon2/chukwa", "argon2/wrkz"]

/-- Sample representative table. -/
def sampleBa2a : Int → Nat
  | 0 => 3
  | 1 => 12
  | 2 => 14
  | 3 => 16
  | 4 => 18
  | 5 => 21
  | 6 => 20
  | 7 => 22
  | 8 => 23
  | 9 => 24
  | _ => 0

/-- Sample environment: one-second rounds, the miner knows `cn/r`, `cn/gpu` and `rx/0`. -/
def sampleEnv : Env :=
  { A := sampleIds
    B := sampleBench
    ba2a := sampleBa2a
    shortName := fun i => sampleNames.getD i ""
    parse := fun name =>
      if sampleNames.indexOf name < sampleNames.length then some (sampleNames.indexOf name)
      else none
    benchAlgoTime := 1
    algorithms := [3, 12, 19] }

/-- A driver whose numeric members are all zero and whose jobs are blank. -/
def zeroBenchmark : Benchmark :=
  { m_isNewBenchRun := true
    m_bench_algo := 0
    m_hash_count := 0
    m_time_start := 0
    m_bench_job := fun _ =>
      { nicehash := false, algorithm := 0, clientId := "benchmark", id := "", blob := "",
        target := "", seedHash := "" }
    m_bench_algo_perf := fun _ => 0
    algo_perf := fun _ => 0 }

/-- A system around `zeroBenchmark` with the network registered and no call made yet. -/
def zeroSystem : System :=
  { bench := zeroBenchmark, listener := Listener.network, events := [] }

/-- Three completion signals: two for `cn/r`, one for `cn/gpu`. -/
def sampleSignals : List (Nat × JobResult) :=
  [(5, { clientId := "benchmark", jobId := "cn/r", diff := 8 }),
   (10, { clientId := "benchmark", jobId := "cn/gpu", diff := 8 }),
   (1006, { clientId := "benchmark", jobId := "cn/r", diff := 8 })]

/-- A signal of the pool, as the network client would tag it. -/
def poolResult : JobResult := { clientId := "pool-1", jobId := "abc", diff := 1000 }

/-- A signal of the synthetic job of `cn/r`. -/
def cnrResult : JobResult := { clientId := "benchmark", jobId := "cn/r", diff := 8 }

/-- A system in the middle of the round of `cn/r`: 99 units counted, first signal at 1000 ms. -/
def midRound : System :=
  { bench := { zeroBenchmark with m_bench_algo := 0, m_hash_count := 99, m_time_start := 1000 }
    listener := Listener.benchmark
    events := [] }

/-- A profile in which `cn/r` (id 3) holds 123.5 and every other variant 0. -/
def sampleProfile : Benchmark :=
  { zeroBenchmark with algo_perf := fun v => if v = 3 then 247 / 2 else 0 }

/-- A persisted profile with a good entry, an unknown name and a string value. -/
def sampleMembers : List (String × JsonValue) :=
  [("cn/r", JsonValue.double (247 / 2)), ("no-such-algo", JsonValue.integer 5),
    ("cn/gpu", JsonValue.string "fast")]

/-- A driver holding a non-zero profile and a cleared flag, as left by an earlier load. -/
def loadedBenchmark : Benchmark :=
  { zeroBenchmark with m_isNewBenchRun := false, algo_perf := fun _ => 77 }

/-- A persisted profile in which `cn/r` is given twice: first a number, then a string. -/
def duplicateMembers : List (String × JsonValue) :=
  [("cn/r", JsonValue.double (247 / 2)), ("cn/r", JsonValue.string "fast"),
    ("cn/gpu", JsonValue.integer 40)]

/-- Signals of one round of `cn/r`: accepted at 1000, a stale one of `cn/gpu`, accepted at
1500 and at 2000. -/
def roundSignals : List (Nat × JobResult) :=
  [(1000, cnrResult), (1200, { clientId := "benchmark", jobId := "cn/gpu", diff := 8 }),
    (1500, cnrResult), (2000, cnrResult)]

/-- The largest finite single-precision value, `FLT_MAX = (2^24 - 1) * 2^104`. -/
def fltMax : ℚ := (2 ^ 24 - 1) * 2 ^ 104

/-- A profile in which `cn/r` (id 3) holds `FLT_MAX` and every other variant 0. -/
def fltMaxProfile : Benchmark :=
  { zeroBenchmark with algo_perf := fun v => if v = 3 then fltMax else 0 }

/-! ## Auxiliary lemmas -/

/-- An array-filling loop `for (i = 0; i != n; ++i) a[i] = g(i)` writes `g i` at every index
below `n` and leaves the others. -/
theorem foldl_update_range (g : Nat → ℚ) (n : Nat) (f : Nat → ℚ) (v : Nat) :
    (List.range n).foldl (fun perf algo => Function.update perf algo (g algo)) f v =
      if v < n then g v else f v := by
  induction n with
  | zero => simp
  | succ k ih =>
    rw [List.range_succ, List.foldl_append]
    simp only [List.foldl_cons, List.foldl_nil]
    by_cases hvk : v = k
    · subst hvk
      simp
    · rw [Function.update_noteq hvk, ih]
      have : (v < k + 1) ↔ (v < k) := by omega
      simp [this]

/-- A conditional between two scaled rates is a scaled rate. -/
theorem exists_scale_ite (c : Prop) [Decidable c] (f g : (Int → ℚ) → ℚ)
    (hf : ∃ (b : Int) (scale : ℚ), ∀ rate : Int → ℚ, f rate = rate b * scale)
    (hg : ∃ (b : Int) (scale : ℚ), ∀ rate : Int → ℚ, g rate = rate b * scale) :
    ∃ (b : Int) (scale : ℚ), ∀ rate : Int → ℚ,
      (if c then f rate else g rate) = rate b * scale := by
  by_cases hc : c
  · simpa [hc] using hf
  · simpa [hc] using hg

theorem startedAlgos_append (xs ys : List Event) :
    startedAlgos (xs ++ ys) = startedAlgos xs ++ startedAlgos ys := by
  simp [startedAlgos, List.filterMap_append]

theorem enumeration_succ (E : Env) (k : Nat) :
    enumeration E (k + 1) = enumeration E k ++ [E.B.MIN + (k : Int)] := by
  simp [enumeration, List.range_succ]

theorem enumeration_nodup (E : Env) (k : Nat) : (enumeration E k).Nodup := by
  have hinj : Function.Injective (fun i : Nat => E.B.MIN + (i : Int)) := by
    intro a b h
    simpa using h
  exact (List.nodup_range k).map hinj

theorem enumeration_one (E : Env) : enumeration E 1 = [E.B.MIN] := by
  rw [enumeration_succ]
  simp [enumeration]

/-! ### The branches of `onJobResult` -/

theorem onJobResult_forward (E : Env) (now : Nat) (result : JobResult) (s : System)
    (h : result.clientId ≠ "benchmark") :
    onJobResult E now result s =
      { s with
        listener := Listener.network
        events := s.events ++
          [Event.setListener Listener.network, Event.networkOnJobResult result] } := by
  unfold onJobResult
  rw [if_pos h]

theorem onJobResult_discard (E : Env) (now : Nat) (result : JobResult) (s : System)
    (h : result.clientId = "benchmark")
    (h2 : s.bench.m_bench_algo = E.B.INVALID ∨
      result.jobId ≠ E.shortName (E.ba2a s.bench.m_bench_algo)) :
    onJobResult E now result s = s := by
  unfold onJobResult
  rw [if_neg (not_not.mpr h), if_pos h2]

theorem not_skip_of_counted {E : Env} {result : JobResult} {s : System}
    (h : Counted E result s) :
    ¬ (s.bench.m_bench_algo = E.B.INVALID ∨
      result.jobId ≠ E.shortName (E.ba2a s.bench.m_bench_algo)) := by
  rintro (h1 | h2)
  · exact h.2.1 h1
  · exact h2 h.2.2

theorem onJobResult_first (E : Env) (now : Nat) (result : JobResult) (s : System)
    (h : Counted E result s) (h0 : s.bench.m_time_start = 0) :
    onJobResult E now result s =
      { s with
        bench :=
          { s.bench with
            m_hash_count := (s.bench.m_hash_count + 1) % 2 ^ 64
            m_time_start := now } } := by
  unfold onJobResult
  rw [if_neg (not_not.mpr h.1), if_neg (not_skip_of_counted h)]
  simp only [if_pos h0]

theorem onJobResult_within (E : Env) (now : Nat) (result : JobResult) (s : System)
    (h : Counted E result s) (h0 : s.bench.m_time_start ≠ 0)
    (hle : ¬ elapsed now s.bench.m_time_start > roundLimit E) :
    onJobResult E now result s =
      { s with bench := { s.bench with m_hash_count := (s.bench.m_hash_count + 1) % 2 ^ 64 } } := by
  unfold onJobResult
  rw [if_neg (not_not.mpr h.1), if_neg (not_skip_of_counted h)]
  simp only [if_neg h0, if_neg hle]

theorem onJobResult_roundEnd (E : Env) (now : Nat) (result : JobResult) (s : System)
    (h : Counted E result s) (h0 : s.bench.m_time_start ≠ 0)
    (hgt : elapsed now s.bench.m_time_start > roundLimit E) :
    onJobResult E now result s =
      if s.bench.m_bench_algo + 1 ≠ E.B.MAX then
        start_bench_algo E (s.bench.m_bench_algo + 1) (roundStored now result s)
      else finish E (roundStored now result s) := by
  unfold onJobResult
  rw [if_neg (not_not.mpr h.1), if_neg (not_skip_of_counted h)]
  simp only [if_neg h0, if_pos hgt, roundStored]

/-! ### Round sequencing -/

theorem sequencingInv_start (E : Env) (hmin : E.B.MIN < E.B.MAX) (s0 : System) :
    SequencingInv E (start E { s0 with events := [] }) := by
  left
  refine ⟨1, le_refl 1, ?_, ?_, ?_, ?_⟩
  · simp [start, start_bench_algo]
  · simpa [start, start_bench_algo] using hmin
  · rw [enumeration_one]
    simp [start, start_bench_algo, startedAlgos]
  · simp [start, start_bench_algo]

theorem sequencingInv_frame (E : Env) (s t : System)
    (halgo : t.bench.m_bench_algo = s.bench.m_bench_algo) (hev : t.events = s.events)
    (h : SequencingInv E s) : SequencingInv E t := by
  unfold SequencingInv at h ⊢
  rw [halgo, hev]
  exact h

theorem sequencingInv_onJobResult (E : Env) (now : Nat) (result : JobResult) (s : System)
    (h : SequencingInv E s) : SequencingInv E (onJobResult E now result s) := by
  by_cases hc : result.clientId = "benchmark"
  swap
  · -- hand-over to the network listener
    rw [onJobResult_forward E now result s hc]
    rcases h with ⟨k, hk, hcur, hlt, hst, hfin⟩ | ⟨hinv, pre, post, hev, hpre, hpost, hfin⟩
    · left
      refine ⟨k, hk, hcur, hlt, ?_, ?_⟩
      · show startedAlgos (s.events ++ _) = _
        rw [startedAlgos_append, hst]
        simp [startedAlgos]
      · show Event.enterFinish ∉ s.events ++ _
        simpa using hfin
    · right
      refine ⟨hinv, pre, post ++ [Event.setListener Listener.network,
        Event.networkOnJobResult result], ?_, hpre, ?_, ?_⟩
      · show s.events ++ _ = _
        rw [hev]
        simp
      · rw [startedAlgos_append, hpost]
        rfl
      · simpa using hfin
  by_cases hskip : s.bench.m_bench_algo = E.B.INVALID ∨
      result.jobId ≠ E.shortName (E.ba2a s.bench.m_bench_algo)
  · rw [onJobResult_discard E now result s hc hskip]
    exact h
  have hcnt : Counted E result s :=
    ⟨hc, fun h1 => hskip (Or.inl h1), by_contra fun h2 => hskip (Or.inr h2)⟩
  by_cases h0 : s.bench.m_time_start = 0
  · rw [onJobResult_first E now result s hcnt h0]
    exact sequencingInv_frame E s _ rfl rfl h
  by_cases hgt : elapsed now s.bench.m_time_start > roundLimit E
  swap
  · rw [onJobResult_within E now result s hcnt h0 hgt]
    exact sequencingInv_frame E s _ rfl rfl h
  rw [onJobResult_roundEnd E now result s hcnt h0 hgt]
  rcases h with ⟨k, hk, hcur, hlt, hst, hfin⟩ | ⟨hinv, _⟩
  swap
  · exact absurd hinv hcnt.2.1
  by_cases hnext : s.bench.m_bench_algo + 1 ≠ E.B.MAX
  · -- another benchmark algorithm remains
    rw [if_pos hnext]
    left
    refine ⟨k + 1, by omega, ?_, ?_, ?_, ?_⟩
    · show s.bench.m_bench_algo + 1 = _
      push_cast
      omega
    · show s.bench.m_bench_algo + 1 < _
      omega
    · show startedAlgos (s.events ++ _) = _
      rw [startedAlgos_append, hst, enumeration_succ]
      simp only [startedAlgos, List.filterMap_cons, List.filterMap_nil]
      congr 2
      omega
    · show Event.enterFinish ∉ s.events ++ _
      simpa using hfin
  · -- round end of the last benchmark algorithm
    rw [if_neg hnext]
    have hmax : s.bench.m_bench_algo + 1 = E.B.MAX := not_not.mp hnext
    right
    refine ⟨rfl, s.events, [Event.minerPause, Event.setListener Listener.network,
      Event.controllerStart], rfl, ?_, rfl, by simp⟩
    have hk2 : (E.B.MAX - E.B.MIN).toNat = k := by omega
    rw [hk2]
    exact hst

theorem sequencingInv_runSignals (E : Env) (signals : List (Nat × JobResult)) (s : System)
    (h : SequencingInv E s) : SequencingInv E (runSignals E s signals) := by
  induction signals generalizing s with
  | nil => exact h
  | cons sig rest ih =>
    simp only [runSignals, List.foldl_cons]
    exact ih _ (sequencingInv_onJobResult E sig.1 sig.2 s h)

/-! ### Delivery once the network is the listener -/

theorem deliverAll_network (E : Env) (signals : List (Nat × JobResult)) (s : System)
    (h : s.listener = Listener.network) :
    (deliverAll E s signals).listener = Listener.network ∧
    (deliverAll E s signals).bench = s.bench ∧
    (deliverAll E s signals).events =
      s.events ++ signals.map (fun sig => Event.networkOnJobResult sig.2) := by
  induction signals generalizing s with
  | nil => simp [deliverAll, h]
  | cons sig rest ih =>
    have hstep : deliver E s sig =
        { s with events := s.events ++ [Event.networkOnJobResult sig.2] } := by
      unfold deliver
      rw [h]
    have hrec := ih (deliver E s sig) (by rw [hstep]; exact h)
    simp only [deliverAll, List.foldl_cons] at hrec ⊢
    rw [hrec.1, hrec.2.1, hrec.2.2, hstep]
    simp

theorem hashrate_eq (c d e : Nat) :
    hashrate c d e = (c : ℚ) * (d : ℚ) * 1000 / (e : ℚ) := by
  unfold hashrate
  ring

theorem elapsed_eq_sub (now start : Nat) (h1 : start ≤ now) (h2 : now < 2 ^ 64) :
    elapsed now start = now - start := by
  unfold elapsed
  have h3 : now + 2 ^ 64 - start = (now - start) + 2 ^ 64 := by omega
  rw [h3, Nat.add_mod_right]
  exact Nat.mod_eq_of_lt (by omega)

/-! ### The member loop of `read` -/

theorem read_eq (E : Env) (value : JsonValue) (b : Benchmark) :
    read E value b = value.members.foldl (readMember E)
      { b with
        algo_perf := (List.range E.A.MAX).foldl
          (fun perf algo => Function.update perf algo 0) b.algo_perf } := by
  cases value <;> rfl

theorem readMember_rejected (E : Env) (b : Benchmark) (member : String × JsonValue)
    (h : accepted E member = false) : readMember E b member = b := by
  unfold readMember
  unfold accepted at h
  cases hp : E.parse member.1 with
  | none => rfl
  | some id =>
    rw [hp] at h
    simp only [Option.isSome_some, Bool.true_and, Bool.or_eq_false_iff] at h
    simp [h.1, h.2]

theorem readMember_accepted (E : Env) (b : Benchmark) (member : String × JsonValue) (id : Nat)
    (hp : E.parse member.1 = some id) (h : accepted E member = true) :
    readMember E b member =
      { b with
        algo_perf := Function.update b.algo_perf id (memberValue member)
        m_isNewBenchRun := false } := by
  unfold readMember memberValue
  unfold accepted at h
  rw [hp] at h
  simp only [Option.isSome_some, Bool.true_and, Bool.or_eq_true] at h
  simp only [hp]
  by_cases hf : member.2.IsFloat = true
  · simp [hf]
  · rcases h with h | h
    · exact absurd h hf
    · simp [hf, h]

theorem accepted_parse (E : Env) (member : String × JsonValue) (h : accepted E member = true) :
    ∃ id, E.parse member.1 = some id := by
  unfold accepted at h
  cases hp : E.parse member.1 with
  | none => rw [hp] at h; simp at h
  | some id => exact ⟨id, rfl⟩

theorem foldl_readMember_flag (E : Env) (members : List (String × JsonValue)) (b : Benchmark) :
    (members.foldl (readMember E) b).m_isNewBenchRun =
      (b.m_isNewBenchRun && !anyAccepted E members) := by
  induction members generalizing b with
  | nil => simp [anyAccepted]
  | cons m rest ih =>
    rw [List.foldl_cons, ih]
    cases h : accepted E m with
    | false =>
      rw [readMember_rejected E b m h]
      simp [anyAccepted, h]
    | true =>
      obtain ⟨id, hp⟩ := accepted_parse E m h
      rw [readMember_accepted E b m id hp h]
      simp [anyAccepted, h]

theorem lastAccepted_cons (E : Env) (m : String × JsonValue)
    (rest : List (String × JsonValue)) (v : Nat) :
    lastAccepted E (m :: rest) v =
      match lastAccepted E rest v with
      | some x => some x
      | none =>
        if accepted E m = true ∧ E.parse m.1 = some v then some (memberValue m) else none :=
  rfl

theorem foldl_readMember_perf (E : Env) (members : List (String × JsonValue)) (b : Benchmark)
    (v : Nat) :
    (members.foldl (readMember E) b).algo_perf v =
      (lastAccepted E members v).getD (b.algo_perf v) := by
  induction members generalizing b with
  | nil => rfl
  | cons m rest ih =>
    rw [List.foldl_cons, ih, lastAccepted_cons]
    cases hrest : lastAccepted E rest v with
    | some x => rfl
    | none =>
      simp only [Option.getD_none]
      cases h : accepted E m with
      | false =>
        rw [readMember_rejected E b m h]
        simp
      | true =>
        obtain ⟨id, hp⟩ := accepted_parse E m h
        rw [readMember_accepted E b m id hp h]
        by_cases hid : id = v
        · subst hid
          simp [hp]
        · have hne : ¬ E.parse m.1 = some v := by
            rw [hp]
            intro heq
            exact hid (Option.some.inj heq)
          simp [hne, Function.update_noteq (Ne.symm hid)]

theorem read_perf (E : Env) (value : JsonValue) (b : Benchmark) (v : Nat) (hv : v < E.A.MAX) :
    (read E value b).algo_perf v = (lastAccepted E value.members v).getD 0 := by
  rw [read_eq, foldl_readMember_perf]
  congr 1
  show (List.range E.A.MAX).foldl (fun perf algo => Function.update perf algo 0) b.algo_perf v = 0
  rw [foldl_update_range (fun _ => 0)]
  simp [hv]

theorem read_flag (E : Env) (value : JsonValue) (b : Benchmark) :
    (read E value b).m_isNewBenchRun = (b.m_isNewBenchRun && !anyAccepted E value.members) := by
  rw [read_eq, foldl_readMember_flag]

theorem lastAccepted_none (E : Env) (members : List (String × JsonValue)) (v : Nat)
    (h : ∀ m ∈ members, accepted E m = true → E.parse m.1 ≠ some v) :
    lastAccepted E members v = none := by
  induction members with
  | nil => rfl
  | cons m rest ih =>
    rw [lastAccepted_cons, ih (fun x hx => h x (List.mem_cons_of_mem m hx))]
    have hm := h m (List.mem_cons_self m rest)
    by_cases ha : accepted E m = true
    · simp [ha, hm ha]
    · simp [ha]

theorem serialized_rejected_of_out_of_range (E : Env) (p : Nat → ℚ) (a : Nat)
    (h : ¬ (-floatBound ≤ p a ∧ p a ≤ floatBound)) :
    accepted E (E.shortName a, JsonValue.double (p a)) = false := by
  have hfl : (JsonValue.double (p a)).IsFloat = false := by
    by_cases h1 : -floatBound ≤ p a
    · have h2 : ¬ p a ≤ floatBound := fun h2 => h ⟨h1, h2⟩
      simp [JsonValue.IsFloat, h2]
    · simp [JsonValue.IsFloat, h1]
  simp [accepted, hfl, JsonValue.IsInt]

theorem lastAccepted_serialized_none (E : Env) (p : Nat → ℚ) (algos : List Nat) (v : Nat)
    (hres : ∀ a ∈ algos, E.parse (E.shortName a) = some a)
    (h : v ∉ algos ∨ ¬ (-floatBound ≤ p v ∧ p v ≤ floatBound)) :
    lastAccepted E (algos.map (fun a => (E.shortName a, JsonValue.double (p a)))) v = none := by
  refine lastAccepted_none E _ v ?_
  intro m hm hacc hname
  obtain ⟨a, ha, rfl⟩ := List.mem_map.mp hm
  have hav : a = v := by
    have h1 := hres a ha
    simp only at hname
    rw [h1] at hname
    exact Option.some.inj hname
  subst hav
  rcases h with h | h
  · exact h ha
  · rw [serialized_rejected_of_out_of_range E p a h] at hacc
    exact absurd hacc (by decide)

theorem lastAccepted_serialized_some (E : Env) (p : Nat → ℚ) (algos : List Nat) (v : Nat)
    (hres : ∀ a ∈ algos, E.parse (E.shortName a) = some a)
    (hv : v ∈ algos) (hfin : -floatBound ≤ p v ∧ p v ≤ floatBound) :
    lastAccepted E (algos.map (fun a => (E.shortName a, JsonValue.double (p a)))) v =
      some (p v) := by
  induction algos with
  | nil => exact absurd hv (List.not_mem_nil v)
  | cons a rest ih =>
    have hres2 : ∀ x ∈ rest, E.parse (E.shortName x) = some x :=
      fun x hx => hres x (List.mem_cons_of_mem a hx)
    rw [List.map_cons, lastAccepted_cons]
    by_cases hvr : v ∈ rest
    · rw [ih hres2 hvr]
    · have hva : v = a := by
        rcases List.mem_cons.mp hv with h | h
        · exact h
        · exact absurd h hvr
      subst hva
      rw [lastAccepted_serialized_none E p rest v hres2 (Or.inl hvr)]
      have hpa := hres v (List.mem_cons_self v rest)
      have hfl : (JsonValue.double (p v)).IsFloat = true := by
        simp [JsonValue.IsFloat, hfin.1, hfin.2]
      have hacc : accepted E (E.shortName v, JsonValue.double (p v)) = true := by
        simp [accepted, hpa, hfl]
      have hval : memberValue (E.shortName v, JsonValue.double (p v)) = p v := by
        simp [memberValue, hfl, JsonValue.GetFloat]
      simp [hacc, hpa, hval]

theorem lastAccepted_last (E : Env) (pre post : List (String × JsonValue))
    (m : String × JsonValue) (v : Nat) (hacc : accepted E m = true)
    (hname : E.parse m.1 = some v)
    (hpost : ∀ x ∈ post, accepted E x = true → E.parse x.1 ≠ some v) :
    lastAccepted E (pre ++ m :: post) v = some (memberValue m) := by
  induction pre with
  | nil =>
    rw [List.nil_append, lastAccepted_cons, lastAccepted_none E post v hpost]
    simp [hacc, hname]
  | cons p rest ih =>
    rw [List.cons_append, lastAccepted_cons, ih]

theorem read_drop_rejected (E : Env) (pre post : List (String × JsonValue))
    (m : String × JsonValue) (b : Benchmark) (h : accepted E m = false) :
    read E (JsonValue.object (pre ++ m :: post)) b =
      read E (JsonValue.object (pre ++ post)) b := by
  rw [read_eq, read_eq]
  simp only [JsonValue.members, List.foldl_append, List.foldl_cons]
  rw [readMember_rejected E _ m h]

/-! ### The switch of `get_algo_perf` -/

theorem get_algo_perf_unlisted (A : AlgorithmIds) (B : BenchAlgos) (rate : Int → ℚ) (v : Nat)
    (h : v ∉ caseLabels A) : get_algo_perf A B rate v = 0 := by
  simp only [caseLabels, List.mem_cons, List.mem_singleton, List.not_mem_nil, not_or,
    or_false] at h
  simp [get_algo_perf, h]

theorem caseLabels_ne (A : AlgorithmIds) (hd : (caseLabels A).Nodup) (i j : Fin 24)
    (hij : i ≠ j) : (caseLabels A).get i ≠ (caseLabels A).get j :=
  fun h => hij (hd.get_inj_iff.mp h)

theorem get_algo_perf_CN_0 (A : AlgorithmIds) (B : BenchAlgos) (rate : Int → ℚ) :
    get_algo_perf A B rate A.CN_0 = rate B.CN_R := by
  unfold get_algo_perf
  rw [if_pos rfl]

theorem get_algo_perf_CN_FAST (A : AlgorithmIds) (B : BenchAlgos) (rate : Int → ℚ)
    (hd : (caseLabels A).Nodup) : get_algo_perf A B rate A.CN_FAST = rate B.CN_R * 2 := by
  have h0 : A.CN_FAST ≠ A.CN_0 := caseLabels_ne A hd 5 0 (by decide)
  have h1 : A.CN_FAST ≠ A.CN_1 := caseLabels_ne A hd 5 1 (by decide)
  have h2 : A.CN_FAST ≠ A.CN_2 := caseLabels_ne A hd 5 2 (by decide)
  have h3 : A.CN_FAST ≠ A.CN_R := caseLabels_ne A hd 5 3 (by decide)
  have h4 : A.CN_FAST ≠ A.CN_WOW := caseLabels_ne A hd 5 4 (by decide)
  unfold get_algo_perf
  rw [if_neg h0, if_neg h1, if_neg h2, if_neg h3, if_neg h4, if_pos rfl]

theorem get_algo_perf_CN_RWZ (A : AlgorithmIds) (B : BenchAlgos) (rate : Int → ℚ)
    (hd : (caseLabels A).Nodup) : get_algo_perf A B rate A.CN_RWZ = rate B.CN_R / 3 * 4 := by
  have h0 : A.CN_RWZ ≠ A.CN_0 := caseLabels_ne A hd 9 0 (by decide)
  have h1 : A.CN_RWZ ≠ A.CN_1 := caseLabels_ne A hd 9 1 (by decide)
  have h2 : A.CN_RWZ ≠ A.CN_2 := caseLabels_ne A hd 9 2 (by decide)
  have h3 : A.CN_RWZ ≠ A.CN_R := caseLabels_ne A hd 9 3 (by decide)
  have h4 : A.CN_RWZ ≠ A.CN_WOW := caseLabels_ne A hd 9 4 (by decide)
  have h5 : A.CN_RWZ ≠ A.CN_FAST := caseLabels_ne A hd 9 5 (by decide)
  have h6 : A.CN_RWZ ≠ A.CN_HALF := caseLabels_ne A hd 9 6 (by decide)
  have h7 : A.CN_RWZ ≠ A.CN_XAO := caseLabels_ne A hd 9 7 (by decide)
  have h8 : A.CN_RWZ ≠ A.CN_RTO := caseLabels_ne A hd 9 8 (by decide)
  unfold get_algo_perf
  rw [if_neg h0, if_neg h1, if_neg h2, if_neg h3, if_neg h4, if_neg h5, if_neg h6, if_neg h7,
    if_neg h8, if_pos rfl]

theorem get_algo_perf_CN_DOUBLE (A : AlgorithmIds) (B : BenchAlgos) (rate : Int → ℚ)
    (hd : (caseLabels A).Nodup) : get_algo_perf A B rate A.CN_DOUBLE = rate B.CN_R / 2 := by
  have h0 : A.CN_DOUBLE ≠ A.CN_0 := caseLabels_ne A hd 11 0 (by decide)
  have h1 : A.CN_DOUBLE ≠ A.CN_1 := caseLabels_ne A hd 11 1 (by decide)
  have h2 : A.CN_DOUBLE ≠ A.CN_2 := caseLabels_ne A hd 11 2 (by decide)
  have h3 : A.CN_DOUBLE ≠ A.CN_R := caseLabels_ne A hd 11 3 (by decide)
  have h4 : A.CN_DOUBLE ≠ A.CN_WOW := caseLabels_ne A hd 11 4 (by decide)
  have h5 : A.CN_DOUBLE ≠ A.CN_FAST := caseLabels_ne A hd 11 5 (by decide)
  have h6 : A.CN_DOUBLE ≠ A.CN_HALF := caseLabels_ne A hd 11 6 (by decide)
  have h7 : A.CN_DOUBLE ≠ A.CN_XAO := caseLabels_ne A hd 11 7 (by decide)
  have h8 : A.CN_DOUBLE ≠ A.CN_RTO := caseLabels_ne A hd 11 8 (by decide)
  have h9 : A.CN_DOUBLE ≠ A.CN_RWZ := caseLabels_ne A hd 11 9 (by decide)
  have h10 : A.CN_DOUBLE ≠ A.CN_ZLS := caseLabels_ne A hd 11 10 (by decide)
  unfold get_algo_perf
  rw [if_neg h0, if_neg h1, if_neg h2, if_neg h3, if_neg h4, if_neg h5, if_neg h6, if_neg h7,
    if_neg h8, if_neg h9, if_neg h10, if_pos rfl]

theorem get_algo_perf_CN_R (A : AlgorithmIds) (B : BenchAlgos) (rate : Int → ℚ)
    (hd : (caseLabels A).Nodup) : get_algo_perf A B rate A.CN_R = rate B.CN_R := by
  have h0 : A.CN_R ≠ A.CN_0 := caseLabels_ne A hd 3 0 (by decide)
  have h1 : A.CN_R ≠ A.CN_1 := caseLabels_ne A hd 3 1 (by decide)
  have h2 : A.CN_R ≠ A.CN_2 := caseLabels_ne A hd 3 2 (by decide)
  unfold get_algo_perf
  rw [if_neg h0, if_neg h1, if_neg h2, if_pos rfl]

theorem get_algo_perf_CN_GPU (A : AlgorithmIds) (B : BenchAlgos) (rate : Int → ℚ)
    (hd : (caseLabels A).Nodup) : get_algo_perf A B rate A.CN_GPU = rate B.CN_GPU := by
  have h0 : A.CN_GPU ≠ A.CN_0 := caseLabels_ne A hd 12 0 (by decide)
  have h1 : A.CN_GPU ≠ A.CN_1 := caseLabels_ne A hd 12 1 (by decide)
  have h2 : A.CN_GPU ≠ A.CN_2 := caseLabels_ne A hd 12 2 (by decide)
  have h3 : A.CN_GPU ≠ A.CN_R := caseLabels_ne A hd 12 3 (by decide)
  have h4 : A.CN_GPU ≠ A.CN_WOW := caseLabels_ne A hd 12 4 (by decide)
  have h5 : A.CN_GPU ≠ A.CN_FAST := caseLabels_ne A hd 12 5 (by decide)
  have h6 : A.CN_GPU ≠ A.CN_HALF := caseLabels_ne A hd 12 6 (by decide)
  have h7 : A.CN_GPU ≠ A.CN_XAO := caseLabels_ne A hd 12 7 (by decide)
  have h8 : A.CN_GPU ≠ A.CN_RTO := caseLabels_ne A hd 12 8 (by decide)
  have h9 : A.CN_GPU ≠ A.CN_RWZ := caseLabels_ne A hd 12 9 (by decide)
  have h10 : A.CN_GPU ≠ A.CN_ZLS := caseLabels_ne A hd 12 10 (by decide)
  have h11 : A.CN_GPU ≠ A.CN_DOUBLE := caseLabels_ne A hd 12 11 (by decide)
  unfold get_algo_perf
  rw [if_neg h0, if_neg h1, if_neg h2, if_neg h3, if_neg h4, if_neg h5, if_neg h6, if_neg h7,
    if_neg h8, if_neg h9, if_neg h10, if_neg h11, if_pos rfl]

theorem get_algo_perf_CN_LITE_1 (A : AlgorithmIds) (B : BenchAlgos) (rate : Int → ℚ)
    (hd : (caseLabels A).Nodup) : get_algo_perf A B rate A.CN_LITE_1 = rate B.CN_LITE_1 := by
  have h0 : A.CN_LITE_1 ≠ A.CN_0 := caseLabels_ne A hd 14 0 (by decide)
  have h1 : A.CN_LITE_1 ≠ A.CN_1 := caseLabels_ne A hd 14 1 (by decide)
  have h2 : A.CN_LITE_1 ≠ A.CN_2 := caseLabels_ne A hd 14 2 (by decide)
  have h3 : A.CN_LITE_1 ≠ A.CN_R := caseLabels_ne A hd 14 3 (by decide)
  have h4 : A.CN_LITE_1 ≠ A.CN_WOW := caseLabels_ne A hd 14 4 (by decide)
  have h5 : A.CN_LITE_1 ≠ A.CN_FAST := caseLabels_ne A hd 14 5 (by decide)
  have h6 : A.CN_LITE_1 ≠ A.CN_HALF := caseLabels_ne A hd 14 6 (by decide)
  have h7 : A.CN_LITE_1 ≠ A.CN_XAO := caseLabels_ne A hd 14 7 (by decide)
  have h8 : A.CN_LITE_1 ≠ A.CN_RTO := caseLabels_ne A hd 14 8 (by decide)
  have h9 : A.CN_LITE_1 ≠ A.CN_RWZ := caseLabels_ne A hd 14 9 (by decide)
  have h10 : A.CN_LITE_1 ≠ A.CN_ZLS := caseLabels_ne A hd 14 10 (by decide)
  have h11 : A.CN_LITE_1 ≠ A.CN_DOUBLE := caseLabels_ne A hd 14 11 (by decide)
  have h12 : A.CN_LITE_1 ≠ A.CN_GPU := caseLabels_ne A hd 14 12 (by decide)
  have h13 : A.CN_LITE_1 ≠ A.CN_LITE_0 := caseLabels_ne A hd 14 13 (by decide)
  unfold get_algo_perf
  rw [if_neg h0, if_neg h1, if_neg h2, if_neg h3, if_neg h4, if_neg h5, if_neg h6, if_neg h7,
    if_neg h8, if_neg h9, if_neg h10, if_neg h11, if_neg h12, if_neg h13, if_pos rfl]

theorem get_algo_perf_CN_HEAVY_TUBE (A : AlgorithmIds) (B : BenchAlgos) (rate : Int → ℚ)
    (hd : (caseLabels A).Nodup) : get_algo_perf A B rate A.CN_HEAVY_TUBE = rate B.CN_HEAVY_TUBE := by
  have h0 : A.CN_HEAVY_TUBE ≠ A.CN_0 := caseLabels_ne A hd 16 0 (by decide)
  have h1 : A.CN_HEAVY_TUBE ≠ A.CN_1 := caseLabels_ne A hd 16 1 (by decide)
  have h2 : A.CN_HEAVY_TUBE ≠ A.CN_2 := caseLabels_ne A hd 16 2 (by decide)
  have h3 : A.CN_HEAVY_TUBE ≠ A.CN_R := caseLabels_ne A hd 16 3 (by decide)
  have h4 : A.CN_HEAVY_TUBE ≠ A.CN_WOW := caseLabels_ne A hd 16 4 (by decide)
  have h5 : A.CN_HEAVY_TUBE ≠ A.CN_FAST := caseLabels_ne A hd 16 5 (by decide)
  have h6 : A.CN_HEAVY_TUBE ≠ A.CN_HALF := caseLabels_ne A hd 16 6 (by decide)
  have h7 : A.CN_HEAVY_TUBE ≠ A.CN_XAO := caseLabels_ne A hd 16 7 (by decide)
  have h8 : A.CN_HEAVY_TUBE ≠ A.CN_RTO := caseLabels_ne A hd 16 8 (by decide)
  have h9 : A.CN_HEAVY_TUBE ≠ A.CN_RWZ := caseLabels_ne A hd 16 9 (by decide)
  have h10 : A.CN_HEAVY_TUBE ≠ A.CN_ZLS := caseLabels_ne A hd 16 10 (by decide)
  have h11 : A.CN_HEAVY_TUBE ≠ A.CN_DOUBLE := caseLabels_ne A hd 16 11 (by decide)
  have h12 : A.CN_HEAVY_TUBE ≠ A.CN_GPU := caseLabels_ne A hd 16 12 (by decide)
  have h13 : A.CN_HEAVY_TUBE ≠ A.CN_LITE_0 := caseLabels_ne A hd 16 13 (by decide)
  have h14 : A.CN_HEAVY_TUBE ≠ A.CN_LITE_1 := caseLabels_ne A hd 16 14 (by decide)
  have h15 : A.CN_HEAVY_TUBE ≠ A.CN_HEAVY_0 := caseLabels_ne A hd 16 15 (by decide)
  unfold get_algo_perf
  rw [if_neg h0, if_neg h1, if_neg h2, if_neg h3, if_neg h4, if_neg h5, if_neg h6, if_neg h7,
    if_neg h8, if_neg h9, if_neg h10, if_neg h11, if_neg h12, if_neg h13, if_neg h14, if_neg
    h15, if_pos rfl]

theorem get_algo_perf_CN_PICO_0 (A : AlgorithmIds) (B : BenchAlgos) (rate : Int → ℚ)
    (hd : (caseLabels A).Nodup) : get_algo_perf A B rate A.CN_PICO_0 = rate B.CN_PICO_0 := by
  have h0 : A.CN_PICO_0 ≠ A.CN_0 := caseLabels_ne A hd 18 0 (by decide)
  have h1 : A.CN_PICO_0 ≠ A.CN_1 := caseLabels_ne A hd 18 1 (by decide)
  have h2 : A.CN_PICO_0 ≠ A.CN_2 := caseLabels_ne A hd 18 2 (by decide)
  have h3 : A.CN_PICO_0 ≠ A.CN_R := caseLabels_ne A hd 18 3 (by decide)
  have h4 : A.CN_PICO_0 ≠ A.CN_WOW := caseLabels_ne A hd 18 4 (by decide)
  have h5 : A.CN_PICO_0 ≠ A.CN_FAST := caseLabels_ne A hd 18 5 (by decide)
  have h6 : A.CN_PICO_0 ≠ A.CN_HALF := caseLabels_ne A hd 18 6 (by decide)
  have h7 : A.CN_PICO_0 ≠ A.CN_XAO := caseLabels_ne A hd 18 7 (by decide)
  have h8 : A.CN_PICO_0 ≠ A.CN_RTO := caseLabels_ne A hd 18 8 (by decide)
  have h9 : A.CN_PICO_0 ≠ A.CN_RWZ := caseLabels_ne A hd 18 9 (by decide)
  have h10 : A.CN_PICO_0 ≠ A.CN_ZLS := caseLabels_ne A hd 18 10 (by decide)
  have h11 : A.CN_PICO_0 ≠ A.CN_DOUBLE := caseLabels_ne A hd 18 11 (by decide)
  have h12 : A.CN_PICO_0 ≠ A.CN_GPU := caseLabels_ne A hd 18 12 (by decide)
  have h13 : A.CN_PICO_0 ≠ A.CN_LITE_0 := caseLabels_ne A hd 18 13 (by decide)
  have h14 : A.CN_PICO_0 ≠ A.CN_LITE_1 := caseLabels_ne A hd 18 14 (by decide)
  have h15 : A.CN_PICO_0 ≠ A.CN_HEAVY_0 := caseLabels_ne A hd 18 15 (by decide)
  have h16 : A.CN_PICO_0 ≠ A.CN_HEAVY_TUBE := caseLabels_ne A hd 18 16 (by decide)
  have h17 : A.CN_PICO_0 ≠ A.CN_HEAVY_XHV := caseLabels_ne A hd 18 17 (by decide)
  unfold get_algo_perf
  rw [if_neg h0, if_neg h1, if_neg h2, if_neg h3, if_neg h4, if_neg h5, if_neg h6, if_neg h7,
    if_neg h8, if_neg h9, if_neg h10, if_neg h11, if_neg h12, if_neg h13, if_neg h14, if_neg
    h15, if_neg h16, if_neg h17, if_pos rfl]

theorem get_algo_perf_RX_LOKI (A : AlgorithmIds) (B : BenchAlgos) (rate : Int → ℚ)
    (hd : (caseLabels A).Nodup) : get_algo_perf A B rate A.RX_LOKI = rate B.RX_LOKI := by
  have h0 : A.RX_LOKI ≠ A.CN_0 := caseLabels_ne A hd 19 0 (by decide)
  have h1 : A.RX_LOKI ≠ A.CN_1 := caseLabels_ne A hd 19 1 (by decide)
  have h2 : A.RX_LOKI ≠ A.CN_2 := caseLabels_ne A hd 19 2 (by decide)
  have h3 : A.RX_LOKI ≠ A.CN_R := caseLabels_ne A hd 19 3 (by decide)
  have h4 : A.RX_LOKI ≠ A.CN_WOW := caseLabels_ne A hd 19 4 (by decide)
  have h5 : A.RX_LOKI ≠ A.CN_FAST := caseLabels_ne A hd 19 5 (by decide)
  have h6 : A.RX_LOKI ≠ A.CN_HALF := caseLabels_ne A hd 19 6 (by decide)
  have h7 : A.RX_LOKI ≠ A.CN_XAO := caseLabels_ne A hd 19 7 (by decide)
  have h8 : A.RX_LOKI ≠ A.CN_RTO := caseLabels_ne A hd 19 8 (by decide)
  have h9 : A.RX_LOKI ≠ A.CN_RWZ := caseLabels_ne A hd 19 9 (by decide)
  have h10 : A.RX_LOKI ≠ A.CN_ZLS := caseLabels_ne A hd 19 10 (by decide)
  have h11 : A.RX_LOKI ≠ A.CN_DOUBLE := caseLabels_ne A hd 19 11 (by decide)
  have h12 : A.RX_LOKI ≠ A.CN_GPU := caseLabels_ne A hd 19 12 (by decide)
  have h13 : A.RX_LOKI ≠ A.CN_LITE_0 := caseLabels_ne A hd 19 13 (by decide)
  have h14 : A.RX_LOKI ≠ A.CN_LITE_1 := caseLabels_ne A hd 19 14 (by decide)
  have h15 : A.RX_LOKI ≠ A.CN_HEAVY_0 := caseLabels_ne A hd 19 15 (by decide)
  have h16 : A.RX_LOKI ≠ A.CN_HEAVY_TUBE := caseLabels_ne A hd 19 16 (by decide)
  have h17 : A.RX_LOKI ≠ A.CN_HEAVY_XHV := caseLabels_ne A hd 19 17 (by decide)
  have h18 : A.RX_LOKI ≠ A.CN_PICO_0 := caseLabels_ne A hd 19 18 (by decide)
  unfold get_algo_perf
  rw [if_neg h0, if_neg h1, if_neg h2, if_neg h3, if_neg h4, if_neg h5, if_neg h6, if_neg h7,
    if_neg h8, if_neg h9, if_neg h10, if_neg h11, if_neg h12, if_neg h13, if_neg h14, if_neg
    h15, if_neg h16, if_neg h17, if_neg h18, if_pos rfl]

theorem get_algo_perf_RX_WOW (A : AlgorithmIds) (B : BenchAlgos) (rate : Int → ℚ)
    (hd : (caseLabels A).Nodup) : get_algo_perf A B rate A.RX_WOW = rate B.RX_WOW := by
  have h0 : A.RX_WOW ≠ A.CN_0 := caseLabels_ne A hd 20 0 (by decide)
  have h1 : A.RX_WOW ≠ A.CN_1 := caseLabels_ne A hd 20 1 (by decide)
  have h2 : A.RX_WOW ≠ A.CN_2 := caseLabels_ne A hd 20 2 (by decide)
  have h3 : A.RX_WOW ≠ A.CN_R := caseLabels_ne A hd 20 3 (by decide)
  have h4 : A.RX_WOW ≠ A.CN_WOW := caseLabels_ne A hd 20 4 (by decide)
  have h5 : A.RX_WOW ≠ A.CN_FAST := caseLabels_ne A hd 20 5 (by decide)
  have h6 : A.RX_WOW ≠ A.CN_HALF := caseLabels_ne A hd 20 6 (by decide)
  have h7 : A.RX_WOW ≠ A.CN_XAO := caseLabels_ne A hd 20 7 (by decide)
  have h8 : A.RX_WOW ≠ A.CN_RTO := caseLabels_ne A hd 20 8 (by decide)
  have h9 : A.RX_WOW ≠ A.CN_RWZ := caseLabels_ne A hd 20 9 (by decide)
  have h10 : A.RX_WOW ≠ A.CN_ZLS := caseLabels_ne A hd 20 10 (by decide)
  have h11 : A.RX_WOW ≠ A.CN_DOUBLE := caseLabels_ne A hd 20 11 (by decide)
  have h12 : A.RX_WOW ≠ A.CN_GPU := caseLabels_ne A hd 20 12 (by decide)
  have h13 : A.RX_WOW ≠ A.CN_LITE_0 := caseLabels_ne A hd 20 13 (by decide)
  have h14 : A.RX_WOW ≠ A.CN_LITE_1 := caseLabels_ne A hd 20 14 (by decide)
  have h15 : A.RX_WOW ≠ A.CN_HEAVY_0 := caseLabels_ne A hd 20 15 (by decide)
  have h16 : A.RX_WOW ≠ A.CN_HEAVY_TUBE := caseLabels_ne A hd 20 16 (by decide)
  have h17 : A.RX_WOW ≠ A.CN_HEAVY_XHV := caseLabels_ne A hd 20 17 (by decide)
  have h18 : A.RX_WOW ≠ A.CN_PICO_0 := caseLabels_ne A hd 20 18 (by decide)
  have h19 : A.RX_WOW ≠ A.RX_LOKI := caseLabels_ne A hd 20 19 (by decide)
  unfold get_algo_perf
  rw [if_neg h0, if_neg h1, if_neg h2, if_neg h3, if_neg h4, if_neg h5, if_neg h6, if_neg h7,
    if_neg h8, if_neg h9, if_neg h10, if_neg h11, if_neg h12, if_neg h13, if_neg h14, if_neg
    h15, if_neg h16, if_neg h17, if_neg h18, if_neg h19, if_pos rfl]

theorem get_algo_perf_DEFYX (A : AlgorithmIds) (B : BenchAlgos) (rate : Int → ℚ)
    (hd : (caseLabels A).Nodup) : get_algo_perf A B rate A.DEFYX = rate B.DEFYX := by
  have h0 : A.DEFYX ≠ A.CN_0 := caseLabels_ne A hd 21 0 (by decide)
  have h1 : A.DEFYX ≠ A.CN_1 := caseLabels_ne A hd 21 1 (by decide)
  have h2 : A.DEFYX ≠ A.CN_2 := caseLabels_ne A hd 21 2 (by decide)
  have h3 : A.DEFYX ≠ A.CN_R := caseLabels_ne A hd 21 3 (by decide)
  have h4 : A.DEFYX ≠ A.CN_WOW := caseLabels_ne A hd 21 4 (by decide)
  have h5 : A.DEFYX ≠ A.CN_FAST := caseLabels_ne A hd 21 5 (by decide)
  have h6 : A.DEFYX ≠ A.CN_HALF := caseLabels_ne A hd 21 6 (by decide)
  have h7 : A.DEFYX ≠ A.CN_XAO := caseLabels_ne A hd 21 7 (by decide)
  have h8 : A.DEFYX ≠ A.CN_RTO := caseLabels_ne A hd 21 8 (by decide)
  have h9 : A.DEFYX ≠ A.CN_RWZ := caseLabels_ne A hd 21 9 (by decide)
  have h10 : A.DEFYX ≠ A.CN_ZLS := caseLabels_ne A hd 21 10 (by decide)
  have h11 : A.DEFYX ≠ A.CN_DOUBLE := caseLabels_ne A hd 21 11 (by decide)
  have h12 : A.DEFYX ≠ A.CN_GPU := caseLabels_ne A hd 21 12 (by decide)
  have h13 : A.DEFYX ≠ A.CN_LITE_0 := caseLabels_ne A hd 21 13 (by decide)
  have h14 : A.DEFYX ≠ A.CN_LITE_1 := caseLabels_ne A hd 21 14 (by decide)
  have h15 : A.DEFYX ≠ A.CN_HEAVY_0 := caseLabels_ne A hd 21 15 (by decide)
  have h16 : A.DEFYX ≠ A.CN_HEAVY_TUBE := caseLabels_ne A hd 21 16 (by decide)
  have h17 : A.DEFYX ≠ A.CN_HEAVY_XHV := caseLabels_ne A hd 21 17 (by decide)
  have h18 : A.DEFYX ≠ A.CN_PICO_0 := caseLabels_ne A hd 21 18 (by decide)
  have h19 : A.DEFYX ≠ A.RX_LOKI := caseLabels_ne A hd 21 19 (by decide)
  have h20 : A.DEFYX ≠ A.RX_WOW := caseLabels_ne A hd 21 20 (by decide)
  unfold get_algo_perf
  rw [if_neg h0, if_neg h1, if_neg h2, if_neg h3, if_neg h4, if_neg h5, if_neg h6, if_neg h7,
    if_neg h8, if_neg h9, if_neg h10, if_neg h11, if_neg h12, if_neg h13, if_neg h14, if_neg
    h15, if_neg h16, if_neg h17, if_neg h18, if_neg h19, if_neg h20, if_pos rfl]

theorem get_algo_perf_AR2_CHUKWA (A : AlgorithmIds) (B : BenchAlgos) (rate : Int → ℚ)
    (hd : (caseLabels A).Nodup) : get_algo_perf A B rate A.AR2_CHUKWA = rate B.AR2_CHUKWA := by
  have h0 : A.AR2_CHUKWA ≠ A.CN_0 := caseLabels_ne A hd 22 0 (by decide)
  have h1 : A.AR2_CHUKWA ≠ A.CN_1 := caseLabels_ne A hd 22 1 (by decide)
  have h2 : A.AR2_CHUKWA ≠ A.CN_2 := caseLabels_ne A hd 22 2 (by decide)
  have h3 : A.AR2_CHUKWA ≠ A.CN_R := caseLabels_ne A hd 22 3 (by decide)
  have h4 : A.AR2_CHUKWA ≠ A.CN_WOW := caseLabels_ne A hd 22 4 (by decide)
  have h5 : A.AR2_CHUKWA ≠ A.CN_FAST := caseLabels_ne A hd 22 5 (by decide)
  have h6 : A.AR2_CHUKWA ≠ A.CN_HALF := caseLabels_ne A hd 22 6 (by decide)
  have h7 : A.AR2_CHUKWA ≠ A.CN_XAO := caseLabels_ne A hd 22 7 (by decide)
  have h8 : A.AR2_CHUKWA ≠ A.CN_RTO := caseLabels_ne A hd 22 8 (by decide)
  have h9 : A.AR2_CHUKWA ≠ A.CN_RWZ := caseLabels_ne A hd 22 9 (by decide)
  have h10 : A.AR2_CHUKWA ≠ A.CN_ZLS := caseLabels_ne A hd 22 10 (by decide)
  have h11 : A.AR2_CHUKWA ≠ A.CN_DOUBLE := caseLabels_ne A hd 22 11 (by decide)
  have h12 : A.AR2_CHUKWA ≠ A.CN_GPU := caseLabels_ne A hd 22 12 (by decide)
  have h13 : A.AR2_CHUKWA ≠ A.CN_LITE_0 := caseLabels_ne A hd 22 13 (by decide)
  have h14 : A.AR2_CHUKWA ≠ A.CN_LITE_1 := caseLabels_ne A hd 22 14 (by decide)
  have h15 : A.AR2_CHUKWA ≠ A.CN_HEAVY_0 := caseLabels_ne A hd 22 15 (by decide)
  have h16 : A.AR2_CHUKWA ≠ A.CN_HEAVY_TUBE := caseLabels_ne A hd 22 16 (by decide)
  have h17 : A.AR2_CHUKWA ≠ A.CN_HEAVY_XHV := caseLabels_ne A hd 22 17 (by decide)
  have h18 : A.AR2_CHUKWA ≠ A.CN_PICO_0 := caseLabels_ne A hd 22 18 (by decide)
  have h19 : A.AR2_CHUKWA ≠ A.RX_LOKI := caseLabels_ne A hd 22 19 (by decide)
  have h20 : A.AR2_CHUKWA ≠ A.RX_WOW := caseLabels_ne A hd 22 20 (by decide)
  have h21 : A.AR2_CHUKWA ≠ A.DEFYX := caseLabels_ne A hd 22 21 (by decide)
  unfold get_algo_perf
  rw [if_neg h0, if_neg h1, if_neg h2, if_neg h3, if_neg h4, if_neg h5, if_neg h6, if_neg h7,
    if_neg h8, if_neg h9, if_neg h10, if_neg h11, if_neg h12, if_neg h13, if_neg h14, if_neg
    h15, if_neg h16, if_neg h17, if_neg h18, if_neg h19, if_neg h20, if_neg h21, if_pos rfl]

theorem get_algo_perf_AR2_WRKZ (A : AlgorithmIds) (B : BenchAlgos) (rate : Int → ℚ)
    (hd : (caseLabels A).Nodup) : get_algo_perf A B rate A.AR2_WRKZ = rate B.AR2_WRKZ := by
  have h0 : A.AR2_WRKZ ≠ A.CN_0 := caseLabels_ne A hd 23 0 (by decide)
  have h1 : A.AR2_WRKZ ≠ A.CN_1 := caseLabels_ne A hd 23 1 (by decide)
  have h2 : A.AR2_WRKZ ≠ A.CN_2 := caseLabels_ne A hd 23 2 (by decide)
  have h3 : A.AR2_WRKZ ≠ A.CN_R := caseLabels_ne A hd 23 3 (by decide)
  have h4 : A.AR2_WRKZ ≠ A.CN_WOW := caseLabels_ne A hd 23 4 (by decide)
  have h5 : A.AR2_WRKZ ≠ A.CN_FAST := caseLabels_ne A hd 23 5 (by decide)
  have h6 : A.AR2_WRKZ ≠ A.CN_HALF := caseLabels_ne A hd 23 6 (by decide)
  have h7 : A.AR2_WRKZ ≠ A.CN_XAO := caseLabels_ne A hd 23 7 (by decide)
  have h8 : A.AR2_WRKZ ≠ A.CN_RTO := caseLabels_ne A hd 23 8 (by decide)
  have h9 : A.AR2_WRKZ ≠ A.CN_RWZ := caseLabels_ne A hd 23 9 (by decide)
  have h10 : A.AR2_WRKZ ≠ A.CN_ZLS := caseLabels_ne A hd 23 10 (by decide)
  have h11 : A.AR2_WRKZ ≠ A.CN_DOUBLE := caseLabels_ne A hd 23 11 (by decide)
  have h12 : A.AR2_WRKZ ≠ A.CN_GPU := caseLabels_ne A hd 23 12 (by decide)
  have h13 : A.AR2_WRKZ ≠ A.CN_LITE_0 := caseLabels_ne A hd 23 13 (by decide)
  have h14 : A.AR2_WRKZ ≠ A.CN_LITE_1 := caseLabels_ne A hd 23 14 (by decide)
  have h15 : A.AR2_WRKZ ≠ A.CN_HEAVY_0 := caseLabels_ne A hd 23 15 (by decide)
  have h16 : A.AR2_WRKZ ≠ A.CN_HEAVY_TUBE := caseLabels_ne A hd 23 16 (by decide)
  have h17 : A.AR2_WRKZ ≠ A.CN_HEAVY_XHV := caseLabels_ne A hd 23 17 (by decide)
  have h18 : A.AR2_WRKZ ≠ A.CN_PICO_0 := caseLabels_ne A hd 23 18 (by decide)
  have h19 : A.AR2_WRKZ ≠ A.RX_LOKI := caseLabels_ne A hd 23 19 (by decide)
  have h20 : A.AR2_WRKZ ≠ A.RX_WOW := caseLabels_ne A hd 23 20 (by decide)
  have h21 : A.AR2_WRKZ ≠ A.DEFYX := caseLabels_ne A hd 23 21 (by decide)
  have h22 : A.AR2_WRKZ ≠ A.AR2_CHUKWA := caseLabels_ne A hd 23 22 (by decide)
  unfold get_algo_perf
  rw [if_neg h0, if_neg h1, if_neg h2, if_neg h3, if_neg h4, if_neg h5, if_neg h6, if_neg h7,
    if_neg h8, if_neg h9, if_neg h10, if_neg h11, if_neg h12, if_neg h13, if_neg h14, if_neg
    h15, if_neg h16, if_neg h17, if_neg h18, if_neg h19, if_neg h20, if_neg h21, if_neg h22,
    if_pos rfl]

theorem isTableScale_ite (c : Prop) [Decidable c] (a b : ℚ) (ha : IsTableScale a)
    (hb : IsTableScale b) : IsTableScale (if c then a else b) := by
  by_cases hc : c
  · rw [if_pos hc]
    exact ha
  · rw [if_neg hc]
    exact hb

theorem get_algo_perf_unit_rates (A : AlgorithmIds) (B : BenchAlgos) (v : Nat) :
    IsTableScale (get_algo_perf A B (fun _ => 1) v) := by
  have h1 : IsTableScale ((1 : ℚ)) := Or.inl rfl
  have h2 : IsTableScale ((1 : ℚ) * 2) := Or.inr (Or.inl (by norm_num))
  have h43 : IsTableScale ((1 : ℚ) / 3 * 4) := Or.inr (Or.inr (Or.inl (by norm_num)))
  have h12 : IsTableScale ((1 : ℚ) / 2) := Or.inr (Or.inr (Or.inr (Or.inl rfl)))
  have h0 : IsTableScale (0 : ℚ) := Or.inr (Or.inr (Or.inr (Or.inr rfl)))
  unfold get_algo_perf
  repeat
    first
    | refine isTableScale_ite _ _ _ ?_ ?_
    | exact h1
    | exact h2
    | exact h43
    | exact h12
    | exact h0

theorem get_algo_perf_not_three_quarters (A : AlgorithmIds) (B : BenchAlgos) (v : Nat)
    (b : Int) : ¬ ∀ rate : Int → ℚ, get_algo_perf A B rate v = 3 / 4 * rate b := by
  intro h
  have h1 := h (fun _ => 1)
  rcases get_algo_perf_unit_rates A B v with hx | hx | hx | hx | hx <;>
    · rw [hx] at h1
      norm_num at h1

theorem finish_algo_perf (E : Env) (s : System) (v : Nat) (hv : v < E.A.MAX) :
    (finish E s).bench.algo_perf v = get_algo_perf E.A E.B s.bench.m_bench_algo_perf v := by
  simp only [finish]
  rw [foldl_update_range (get_algo_perf E.A E.B s.bench.m_bench_algo_perf)]
  simp [hv]

/-! ### Timing of a round -/

theorem roundLimit_eq (E : Env) (h0 : 0 ≤ E.benchAlgoTime)
    (h1 : E.benchAlgoTime * 1000 < 2 ^ 32) : (roundLimit E : Int) = E.benchAlgoTime * 1000 := by
  unfold roundLimit
  have hnn : (0 : Int) ≤ E.benchAlgoTime * 1000 := by omega
  rw [Int.emod_eq_of_lt hnn h1, Int.toNat_of_nonneg hnn]

theorem onJobResult_roundEnd_events (E : Env) (now : Nat) (result : JobResult) (s : System)
    (h : Counted E result s) (h0 : s.bench.m_time_start ≠ 0)
    (hgt : elapsed now s.bench.m_time_start > roundLimit E) :
    (onJobResult E now result s).events ≠ s.events := by
  rw [onJobResult_roundEnd E now result s h h0 hgt]
  by_cases hnext : s.bench.m_bench_algo + 1 ≠ E.B.MAX
  · rw [if_pos hnext]
    simp [start_bench_algo, roundStored]
  · rw [if_neg hnext]
    simp [finish, roundStored]

theorem onJobResult_roundEnd_rate (E : Env) (now : Nat) (result : JobResult) (s : System)
    (h : Counted E result s) (h0 : s.bench.m_time_start ≠ 0)
    (hgt : elapsed now s.bench.m_time_start > roundLimit E) :
    (onJobResult E now result s).bench.m_bench_algo_perf s.bench.m_bench_algo =
      hashrate ((s.bench.m_hash_count + 1) % 2 ^ 64) result.diff
        (elapsed now s.bench.m_time_start) := by
  rw [onJobResult_roundEnd E now result s h h0 hgt]
  by_cases hnext : s.bench.m_bench_algo + 1 ≠ E.B.MAX
  · rw [if_pos hnext]
    simp [start_bench_algo, roundStored]
  · rw [if_neg hnext]
    simp [finish, roundStored]

/-! ### The counter and the start time inside a round -/

theorem counted_congr (E : Env) (result : JobResult) (s t : System)
    (h : t.bench.m_bench_algo = s.bench.m_bench_algo) :
    Counted E result t ↔ Counted E result s := by
  unfold Counted
  rw [h]

theorem acceptedSignals_congr (E : Env) (s t : System) (signals : List (Nat × JobResult))
    (h : t.bench.m_bench_algo = s.bench.m_bench_algo) :
    acceptedSignals E t signals = acceptedSignals E s signals := by
  unfold acceptedSignals
  congr 1
  funext sig
  exact decide_eq_decide.mpr (counted_congr E sig.2 s t h)

theorem acceptedSignals_cons_counted (E : Env) (s : System) (sig : Nat × JobResult)
    (rest : List (Nat × JobResult)) (h : Counted E sig.2 s) :
    acceptedSignals E s (sig :: rest) = sig :: acceptedSignals E s rest := by
  simp [acceptedSignals, h]

theorem acceptedSignals_cons_not (E : Env) (s : System) (sig : Nat × JobResult)
    (rest : List (Nat × JobResult)) (h : ¬ Counted E sig.2 s) :
    acceptedSignals E s (sig :: rest) = acceptedSignals E s rest := by
  simp [acceptedSignals, h]

theorem onJobResult_not_counted_bench (E : Env) (now : Nat) (result : JobResult) (s : System)
    (h : ¬ Counted E result s) : (onJobResult E now result s).bench = s.bench := by
  by_cases hc : result.clientId = "benchmark"
  · have hskip : s.bench.m_bench_algo = E.B.INVALID ∨
        result.jobId ≠ E.shortName (E.ba2a s.bench.m_bench_algo) := by
      by_contra hn
      exact h ⟨hc, fun h1 => hn (Or.inl h1), by_contra fun h2 => hn (Or.inr h2)⟩
    rw [onJobResult_discard E now result s hc hskip]
  · rw [onJobResult_forward E now result s hc]

/-- The state of a round that is still open: the benchmark algorithm is the one of the start,
the counter has grown by the number of accepted signals, and the start time, once set, is
kept; when it was unset it is the clock reading of the first accepted signal. -/
theorem round_open_state (E : Env) (signals : List (Nat × JobResult)) (s : System)
    (hcount : s.bench.m_hash_count < 2 ^ 64)
    (hclock : ∀ sig ∈ signals, sig.1 ≠ 0)
    (hopen : roundStaysOpen E s signals = true) :
    (runSignals E s signals).bench.m_bench_algo = s.bench.m_bench_algo ∧
    (runSignals E s signals).bench.m_hash_count =
      (s.bench.m_hash_count + (acceptedSignals E s signals).length) % 2 ^ 64 ∧
    (runSignals E s signals).bench.m_time_start =
      (if s.bench.m_time_start = 0 then firstTime (acceptedSignals E s signals)
        else s.bench.m_time_start) ∧
    (runSignals E s signals).bench.m_bench_algo_perf = s.bench.m_bench_algo_perf := by
  induction signals generalizing s with
  | nil =>
    refine ⟨rfl, ?_, ?_, rfl⟩
    · simp only [runSignals, List.foldl_nil, acceptedSignals, List.filter_nil, List.length_nil,
        Nat.add_zero]
      exact (Nat.mod_eq_of_lt hcount).symm
    · simp only [runSignals, List.foldl_nil, acceptedSignals, List.filter_nil, firstTime]
      split_ifs with h0
      · exact h0
      · rfl
  | cons sig rest ih =>
    have hrun : runSignals E s (sig :: rest) =
        runSignals E (onJobResult E sig.1 sig.2 s) rest := rfl
    have hopen2 : ¬ EndsRound E sig.1 sig.2 s ∧
        roundStaysOpen E (onJobResult E sig.1 sig.2 s) rest = true := by
      simpa [roundStaysOpen] using hopen
    have hclock2 : ∀ x ∈ rest, x.1 ≠ 0 := fun x hx => hclock x (List.mem_cons_of_mem sig hx)
    have hsig : sig.1 ≠ 0 := hclock sig (List.mem_cons_self sig rest)
    rw [hrun]
    by_cases hc : Counted E sig.2 s
    · by_cases h0 : s.bench.m_time_start = 0
      · -- the first counted signal sets the start time
        have hstep := onJobResult_first E sig.1 sig.2 s hc h0
        have halgo : (onJobResult E sig.1 sig.2 s).bench.m_bench_algo = s.bench.m_bench_algo := by
          rw [hstep]
        have hih := ih (onJobResult E sig.1 sig.2 s)
          (by rw [hstep]; exact Nat.mod_lt _ (by norm_num)) hclock2 hopen2.2
        rw [acceptedSignals_congr E s _ rest halgo] at hih
        rw [acceptedSignals_cons_counted E s sig rest hc]
        refine ⟨hih.1.trans halgo, ?_, ?_, ?_⟩
        · rw [hih.2.1, hstep]
          simp only [List.length_cons]
          omega
        · rw [hih.2.2.1, hstep]
          simp [h0, hsig, firstTime]
        · rw [hih.2.2.2, hstep]
      · -- a counted signal inside the limit
        have hle : ¬ elapsed sig.1 s.bench.m_time_start > roundLimit E :=
          fun hgt => hopen2.1 ⟨hc, h0, hgt⟩
        have hstep := onJobResult_within E sig.1 sig.2 s hc h0 hle
        have halgo : (onJobResult E sig.1 sig.2 s).bench.m_bench_algo = s.bench.m_bench_algo := by
          rw [hstep]
        have hih := ih (onJobResult E sig.1 sig.2 s)
          (by rw [hstep]; exact Nat.mod_lt _ (by norm_num)) hclock2 hopen2.2
        rw [acceptedSignals_congr E s _ rest halgo] at hih
        rw [acceptedSignals_cons_counted E s sig rest hc]
        refine ⟨hih.1.trans halgo, ?_, ?_, ?_⟩
        · rw [hih.2.1, hstep]
          simp only [List.length_cons]
          omega
        · rw [hih.2.2.1, hstep]
          simp [h0]
        · rw [hih.2.2.2, hstep]
    · -- a signal that is not counted leaves the members alone
      have hb := onJobResult_not_counted_bench E sig.1 sig.2 s hc
      have halgo : (onJobResult E sig.1 sig.2 s).bench.m_bench_algo = s.bench.m_bench_algo := by
        rw [hb]
      have hih := ih (onJobResult E sig.1 sig.2 s) (by rw [hb]; exact hcount) hclock2 hopen2.2
      rw [acceptedSignals_congr E s _ rest halgo, hb] at hih
      rw [acceptedSignals_cons_not E s sig rest hc]
      exact hih

/-! ## C1 -/

/-- C1: after `finish()` every profile entry `algo_perf[v]` (for `v` below `Algorithm::MAX`)
equals `get_algo_perf(v)` on the measured rates held at the time of the call; two states with
the same measured rates get the same entry whatever `algo_perf` held before; and
`get_algo_perf(v)` is a measured rate times a fixed scale. -/
theorem finish_profile_from_table (E : Env) (s : System) (v : Nat) (hv : v < E.A.MAX) :
    (finish E s).bench.algo_perf v = get_algo_perf E.A E.B s.bench.m_bench_algo_perf v ∧
    (∀ s2 : System, s2.bench.m_bench_algo_perf = s.bench.m_bench_algo_perf →
      (finish E s2).bench.algo_perf v = (finish E s).bench.algo_perf v) ∧
    (∃ (b : Int) (scale : ℚ), ∀ rate : Int → ℚ,
      get_algo_perf E.A E.B rate v = rate b * scale) := by
  have key : ∀ t : System, (finish E t).bench.algo_perf v =
      get_algo_perf E.A E.B t.bench.m_bench_algo_perf v := by
    intro t
    simp only [finish]
    rw [foldl_update_range (get_algo_perf E.A E.B t.bench.m_bench_algo_perf)]
    simp [hv]
  refine ⟨key s, ?_, ?_⟩
  · intro s2 h
    rw [key s2, key s, h]
  · have h43 : ∀ x : ℚ, x / 3 * 4 = x * (4 / 3) := fun x => by ring
    have h12 : ∀ x : ℚ, x / 2 = x * (1 / 2) := fun x => by ring
    unfold get_algo_perf
    repeat
      first
      | refine exists_scale_ite _ _ _ ?_ ?_
      | exact ⟨_, 1, fun rate => (mul_one _).symm⟩
      | exact ⟨_, 2, fun rate => rfl⟩
      | exact ⟨_, 4 / 3, fun rate => h43 _⟩
      | exact ⟨_, 1 / 2, fun rate => h12 _⟩
      | exact ⟨0, 0, fun rate => (mul_zero _).symm⟩

/-- C1 evaluated: variant 9 (`cn/rwz`) of the sample configuration after `finish()`. -/
theorem finish_profile_from_table_witness :
    (9 : Nat) < sampleEnv.A.MAX ∧
    (finish sampleEnv zeroSystem).bench.algo_perf 9 =
      get_algo_perf sampleEnv.A sampleEnv.B zeroSystem.bench.m_bench_algo_perf 9 :=
  ⟨by decide, (finish_profile_from_table sampleEnv zeroSystem 9 (by decide)).1⟩

/-! ## C2 -/

/-- C2: in a run from `start()` under any sequence of completion signals, the arguments of the
calls of `start(bench_algo)` are `MIN, MIN+1, ..., MIN+k-1` for some `1 ≤ k ≤ MAX - MIN`
(a non-empty initial segment of the enumeration order, without repetition or gap); and when
`finish()` has been called, it was called once, after the whole enumeration `MIN .. MAX-1`
had been started, so that the round which called it is the one of `MAX-1`, and no round
was started afterwards. -/
theorem round_sequencing (E : Env) (hmin : E.B.MIN < E.B.MAX) (s0 : System)
    (signals : List (Nat × JobResult)) :
    (∃ k : Nat, 1 ≤ k ∧ (k : Int) ≤ E.B.MAX - E.B.MIN ∧
      startedAlgos (calibrationRun E s0 signals).events = enumeration E k) ∧
    (startedAlgos (calibrationRun E s0 signals).events).Nodup ∧
    (Event.enterFinish ∈ (calibrationRun E s0 signals).events →
      ∃ pre post : List Event,
        (calibrationRun E s0 signals).events = pre ++ Event.enterFinish :: post ∧
        startedAlgos pre = enumeration E (E.B.MAX - E.B.MIN).toNat ∧
        (startedAlgos pre).getLast? = some (E.B.MAX - 1) ∧
        startedAlgos post = [] ∧ Event.enterFinish ∉ post) := by
  have hinv : SequencingInv E (calibrationRun E s0 signals) :=
    sequencingInv_runSignals E signals _ (sequencingInv_start E hmin s0)
  have hlast : (enumeration E (E.B.MAX - E.B.MIN).toNat).getLast? = some (E.B.MAX - 1) := by
    obtain ⟨n, hn⟩ : ∃ n : Nat, (E.B.MAX - E.B.MIN).toNat = n + 1 :=
      ⟨(E.B.MAX - E.B.MIN).toNat - 1, by omega⟩
    rw [hn, enumeration_succ, List.getLast?_concat]
    congr 1
    omega
  rcases hinv with ⟨k, hk, hcur, hlt, hst, hfin⟩ | ⟨_, pre, post, hev, hpre, hpost, hfin⟩
  · refine ⟨⟨k, hk, by omega, hst⟩, ?_, fun hmem => absurd hmem hfin⟩
    rw [hst]
    exact enumeration_nodup E k
  · have hall : startedAlgos (calibrationRun E s0 signals).events =
        enumeration E (E.B.MAX - E.B.MIN).toNat := by
      rw [hev, startedAlgos_append, hpre]
      have hcons : startedAlgos (Event.enterFinish :: post) = startedAlgos post := rfl
      rw [hcons, hpost, List.append_nil]
    refine ⟨⟨(E.B.MAX - E.B.MIN).toNat, by omega, by omega, hall⟩, ?_, fun _ =>
      ⟨pre, post, hev, hpre, ?_, hpost, hfin⟩⟩
    · rw [hall]
      exact enumeration_nodup E _
    · rw [hpre]
      exact hlast

/-- C2 evaluated on the sample configuration with `sampleSignals`. -/
theorem round_sequencing_witness :
    sampleEnv.B.MIN < sampleEnv.B.MAX ∧
    (startedAlgos (calibrationRun sampleEnv zeroSystem sampleSignals).events).Nodup :=
  ⟨by decide, (round_sequencing sampleEnv (by decide) zeroSystem sampleSignals).2.1⟩

/-! ## C3 -/

/-- C3: a completion signal with client identity "benchmark" that arrives while no round is
active, or whose job identity is not the short name of the current round, leaves the whole
system as it was: counter, start time, current benchmark algorithm, measured rates, profile,
registered listener and call record (so no job is submitted). -/
theorem onJobResult_stale_unchanged (E : Env) (now : Nat) (result : JobResult) (s : System)
    (hid : result.clientId = "benchmark")
    (hstale : s.bench.m_bench_algo = E.B.INVALID ∨
      result.jobId ≠ E.shortName (E.ba2a s.bench.m_bench_algo)) :
    onJobResult E now result s = s ∧
    (onJobResult E now result s).bench.m_hash_count = s.bench.m_hash_count ∧
    (onJobResult E now result s).events = s.events := by
  rw [onJobResult_discard E now result s hid hstale]
  exact ⟨rfl, rfl, rfl⟩

/-- C3 evaluated: a signal of `cn/gpu` arriving during the round of `cn/r`. -/
theorem onJobResult_stale_unchanged_witness :
    onJobResult sampleEnv 1500 { clientId := "benchmark", jobId := "cn/gpu", diff := 8 }
        midRound = midRound ∧
    (onJobResult sampleEnv 1500 { clientId := "benchmark", jobId := "cn/gpu", diff := 8 }
        midRound).bench.m_hash_count = midRound.bench.m_hash_count ∧
    (onJobResult sampleEnv 1500 { clientId := "benchmark", jobId := "cn/gpu", diff := 8 }
        midRound).events = midRound.events :=
  onJobResult_stale_unchanged sampleEnv 1500
    { clientId := "benchmark", jobId := "cn/gpu", diff := 8 } midRound rfl
    (Or.inr (by decide))

/-! ## C4 -/

/-- C4: when the driver's `onJobResult` receives a signal whose client identity is not
"benchmark", it registers the network as listener and hands the signal to it, leaving the
driver's members alone; and whatever signals are delivered afterwards (with any client
identity), each goes to the network listener, the driver's members stay as they are, the
network stays registered and `setListener` is not called again. -/
theorem handoff_irreversible (E : Env) (now : Nat) (result : JobResult) (s : System)
    (h : result.clientId ≠ "benchmark") (signals : List (Nat × JobResult)) :
    (onJobResult E now result s).listener = Listener.network ∧
    (onJobResult E now result s).events = s.events ++
      [Event.setListener Listener.network, Event.networkOnJobResult result] ∧
    (onJobResult E now result s).bench = s.bench ∧
    (deliverAll E (onJobResult E now result s) signals).listener = Listener.network ∧
    (deliverAll E (onJobResult E now result s) signals).bench = s.bench ∧
    (deliverAll E (onJobResult E now result s) signals).events =
      (onJobResult E now result s).events ++
        signals.map (fun sig => Event.networkOnJobResult sig.2) := by
  have hl : (onJobResult E now result s).listener = Listener.network := by
    rw [onJobResult_forward E now result s h]
  have hb : (onJobResult E now result s).bench = s.bench := by
    rw [onJobResult_forward E now result s h]
  have hd := deliverAll_network E signals (onJobResult E now result s) hl
  refine ⟨hl, ?_, hb, hd.1, ?_, hd.2.2⟩
  · rw [onJobResult_forward E now result s h]
  · rw [hd.2.1, hb]

/-- C4 evaluated: a pool signal in the middle of a round, then the three sample signals. -/
theorem handoff_irreversible_witness :
    poolResult.clientId ≠ "benchmark" ∧
    (deliverAll sampleEnv (onJobResult sampleEnv 1500 poolResult midRound)
      sampleSignals).listener = Listener.network ∧
    (deliverAll sampleEnv (onJobResult sampleEnv 1500 poolResult midRound)
      sampleSignals).bench = midRound.bench :=
  ⟨by decide,
    (handoff_irreversible sampleEnv 1500 poolResult midRound (by decide) sampleSignals).2.2.2.1,
    (handoff_irreversible sampleEnv 1500 poolResult midRound (by decide) sampleSignals).2.2.2.2.1⟩

/-! ## C5 -/

/-- C5: when a counted signal ends a round (the start time is set and the elapsed time
exceeds the limit), the rate stored for the current benchmark algorithm is
`completed_units × diff ÷ elapsed_ms × 1000`, in exact arithmetic
`completed_units × diff × 1000 / elapsed_ms`, where `completed_units` is the counter after
its increment and `elapsed_ms` is the 64-bit difference `now − m_time_start`, which is the
plain difference when the clock has not gone back; 100 units of difficulty 8 in 2000 ms
give 400. -/
theorem round_end_rate (E : Env) (now : Nat) (result : JobResult) (s : System)
    (hc : Counted E result s) (h0 : s.bench.m_time_start ≠ 0)
    (hgt : elapsed now s.bench.m_time_start > roundLimit E) :
    (onJobResult E now result s).bench.m_bench_algo_perf s.bench.m_bench_algo =
      (((s.bench.m_hash_count + 1) % 2 ^ 64 : Nat) : ℚ) * (result.diff : ℚ) * 1000 /
        ((elapsed now s.bench.m_time_start : Nat) : ℚ) ∧
    (s.bench.m_time_start ≤ now → now < 2 ^ 64 →
      elapsed now s.bench.m_time_start = now - s.bench.m_time_start) ∧
    hashrate 100 8 2000 = 400 := by
  refine ⟨?_, elapsed_eq_sub now s.bench.m_time_start, ?_⟩
  · rw [onJobResult_roundEnd E now result s hc h0 hgt, ← hashrate_eq]
    by_cases hnext : s.bench.m_bench_algo + 1 ≠ E.B.MAX
    · rw [if_pos hnext]
      simp [start_bench_algo, roundStored]
    · rw [if_neg hnext]
      simp [finish, roundStored]
  · rw [hashrate_eq]
    norm_num

/-- C5 evaluated: the hundredth unit of `cn/r`, 2000 ms after the first, stores 400. -/
theorem round_end_rate_witness :
    Counted sampleEnv cnrResult midRound ∧ midRound.bench.m_time_start ≠ 0 ∧
    elapsed 3000 midRound.bench.m_time_start > roundLimit sampleEnv ∧
    (onJobResult sampleEnv 3000 cnrResult midRound).bench.m_bench_algo_perf 0 =
      (((99 + 1) % 2 ^ 64 : Nat) : ℚ) * ((8 : Nat) : ℚ) * 1000 /
        ((elapsed 3000 1000 : Nat) : ℚ) :=
  ⟨by decide, by decide, by decide,
    (round_end_rate sampleEnv 3000 cnrResult midRound (by decide) (by decide) (by decide)).1⟩

/-! ## C6 -/

/-- C6, as stated, fails: the largest finite single-precision value, `FLT_MAX`, stored for
`cn/r` in the sample configuration (valid ids, distinct short names that resolve back) is
written by `toJSON` and skipped by `read`, because it lies above the bound of `IsFloat()`;
the entry reads back as 0. -/
theorem read_toJSON_flt_max_lost :
    (∀ a ∈ sampleEnv.algorithms,
      a < sampleEnv.A.MAX ∧ sampleEnv.parse (sampleEnv.shortName a) = some a) ∧
    (sampleEnv.algorithms.map sampleEnv.shortName).Nodup ∧
    (3 : Nat) ∈ sampleEnv.algorithms ∧
    fltMaxProfile.algo_perf 3 = (2 ^ 24 - 1) * 2 ^ 104 ∧
    (read sampleEnv (toJSON sampleEnv fltMaxProfile) zeroBenchmark).algo_perf 3 = 0 ∧
    (read sampleEnv (toJSON sampleEnv fltMaxProfile) zeroBenchmark).algo_perf 3 ≠
      fltMaxProfile.algo_perf 3 := by
  have hval : fltMaxProfile.algo_perf 3 = (2 ^ 24 - 1) * 2 ^ 104 := by
    simp [fltMaxProfile, fltMax]
  have hout : ¬ (-floatBound ≤ fltMaxProfile.algo_perf 3 ∧
      fltMaxProfile.algo_perf 3 ≤ floatBound) := by
    rw [hval]
    unfold floatBound
    norm_num
  have hperf : (read sampleEnv (toJSON sampleEnv fltMaxProfile) zeroBenchmark).algo_perf 3 =
      0 := by
    rw [read_perf sampleEnv _ zeroBenchmark 3 (by decide)]
    show (lastAccepted sampleEnv (sampleEnv.algorithms.map
      (fun a => (sampleEnv.shortName a, JsonValue.double (fltMaxProfile.algo_perf a)))) 3).getD
        0 = 0
    rw [lastAccepted_serialized_none sampleEnv fltMaxProfile.algo_perf sampleEnv.algorithms 3
      (by decide) (Or.inr hout)]
    rfl
  refine ⟨by decide, by decide, by decide, hval, hperf, ?_⟩
  rw [hperf, hval]
  norm_num

/-- C6, amended: persistence round trip. If every algorithm of the miner has a short name that
resolves back to it, then for every such algorithm `v`, whatever the reading driver held
before: when the stored value of `v` lies in the range that `IsFloat()` accepts
(`|x| ≤ 3.4028234e38`), reading what `toJSON` wrote gives back that value; and when it lies
outside that range (and `v` is below `Algorithm::MAX`), the entry reads back as 0. -/
theorem read_toJSON_roundtrip (E : Env) (p q : Benchmark)
    (hres : ∀ a ∈ E.algorithms, E.parse (E.shortName a) = some a)
    (v : Nat) (hv : v ∈ E.algorithms) :
    (-floatBound ≤ p.algo_perf v ∧ p.algo_perf v ≤ floatBound →
      (read E (toJSON E p) q).algo_perf v = p.algo_perf v) ∧
    (v < E.A.MAX → ¬ (-floatBound ≤ p.algo_perf v ∧ p.algo_perf v ≤ floatBound) →
      (read E (toJSON E p) q).algo_perf v = 0) := by
  constructor
  · intro hfin
    rw [read_eq, foldl_readMember_perf]
    show (lastAccepted E (E.algorithms.map
      (fun a => (E.shortName a, JsonValue.double (p.algo_perf a)))) v).getD _ = _
    rw [lastAccepted_serialized_some E p.algo_perf E.algorithms v hres hv hfin]
    rfl
  · intro hmax hout
    rw [read_perf E _ q v hmax]
    show (lastAccepted E (E.algorithms.map
      (fun a => (E.shortName a, JsonValue.double (p.algo_perf a)))) v).getD 0 = 0
    rw [lastAccepted_serialized_none E p.algo_perf E.algorithms v hres (Or.inr hout)]
    rfl

/-- C6 amended, evaluated: `cn/r` stored as 123.5 reads back as 123.5 into a driver that held
77 everywhere. -/
theorem read_toJSON_roundtrip_witness :
    (∀ a ∈ sampleEnv.algorithms, sampleEnv.parse (sampleEnv.shortName a) = some a) ∧
    (3 : Nat) ∈ sampleEnv.algorithms ∧
    (-floatBound ≤ sampleProfile.algo_perf 3 ∧ sampleProfile.algo_perf 3 ≤ floatBound) ∧
    (read sampleEnv (toJSON sampleEnv sampleProfile) loadedBenchmark).algo_perf 3 =
      sampleProfile.algo_perf 3 ∧
    sampleProfile.algo_perf 3 = 247 / 2 :=
  have hfin : -floatBound ≤ sampleProfile.algo_perf 3 ∧
      sampleProfile.algo_perf 3 ≤ floatBound := by
    simp [sampleProfile, zeroBenchmark, floatBound]
    norm_num
  ⟨by decide, by decide, hfin,
    (read_toJSON_roundtrip sampleEnv sampleProfile loadedBenchmark (by decide) 3
      (by decide)).1 hfin,
    by simp [sampleProfile]⟩

/-! ## C7 -/

/-- C7: the fresh-run flag after `read()`. When no entry of the input is accepted (the input
is not an object, has no members, or every member has an unresolvable name or a value that
passes neither number test) the flag keeps its value; when some entry is accepted the flag is
false; and the constructor sets it to true. -/
theorem read_fresh_run_flag (E : Env) (value : JsonValue) (b uninit : Benchmark) :
    (anyAccepted E value.members = false →
      (read E value b).m_isNewBenchRun = b.m_isNewBenchRun) ∧
    (anyAccepted E value.members = true → (read E value b).m_isNewBenchRun = false) ∧
    ((∀ ms, value ≠ JsonValue.object ms) →
      (read E value b).m_isNewBenchRun = b.m_isNewBenchRun) ∧
    (Benchmark.ctor E uninit).m_isNewBenchRun = true := by
  refine ⟨?_, ?_, ?_, rfl⟩
  · intro h
    rw [read_flag, h]
    simp
  · intro h
    rw [read_flag, h]
    simp
  · intro h
    rw [read_flag]
    cases value with
    | object ms => exact absurd rfl (h ms)
    | _ => simp [JsonValue.members, anyAccepted]

/-- C7 evaluated: a list with one good entry clears the flag, a list of bad entries does not. -/
theorem read_fresh_run_flag_witness :
    anyAccepted sampleEnv (JsonValue.object sampleMembers).members = true ∧
    (read sampleEnv (JsonValue.object sampleMembers) zeroBenchmark).m_isNewBenchRun = false ∧
    anyAccepted sampleEnv (JsonValue.object (sampleMembers.drop 1)).members = false ∧
    (read sampleEnv (JsonValue.object (sampleMembers.drop 1)) zeroBenchmark).m_isNewBenchRun =
      zeroBenchmark.m_isNewBenchRun :=
  have h1 : anyAccepted sampleEnv (JsonValue.object sampleMembers).members = true := by
    simp [anyAccepted, sampleMembers, JsonValue.members, accepted, sampleEnv, sampleNames,
      JsonValue.IsFloat, JsonValue.IsInt, floatBound]
    norm_num
  have h2 : anyAccepted sampleEnv (JsonValue.object (sampleMembers.drop 1)).members = false := by
    decide
  ⟨h1,
    (read_fresh_run_flag sampleEnv (JsonValue.object sampleMembers) zeroBenchmark
      zeroBenchmark).2.1 h1,
    h2,
    (read_fresh_run_flag sampleEnv (JsonValue.object (sampleMembers.drop 1)) zeroBenchmark
      zeroBenchmark).1 h2⟩

/-! ## C8 -/

/-- C8: `read()` does not merge with the profile held before. For every variant `v` below
`Algorithm::MAX` the entry after `read()` is the same from any two prior states; it is 0 when
no accepted entry of the input names `v`; and it is 0 when the input is not an object. -/
theorem read_no_partial_merge (E : Env) (value : JsonValue) (b1 b2 : Benchmark) (v : Nat)
    (hv : v < E.A.MAX) :
    (read E value b1).algo_perf v = (read E value b2).algo_perf v ∧
    ((∀ m ∈ value.members, accepted E m = true → E.parse m.1 ≠ some v) →
      (read E value b1).algo_perf v = 0) ∧
    ((∀ ms, value ≠ JsonValue.object ms) → (read E value b1).algo_perf v = 0) := by
  refine ⟨?_, ?_, ?_⟩
  · rw [read_perf E value b1 v hv, read_perf E value b2 v hv]
  · intro h
    rw [read_perf E value b1 v hv, lastAccepted_none E value.members v h]
    rfl
  · intro h
    rw [read_perf E value b1 v hv]
    cases value with
    | object ms => exact absurd rfl (h ms)
    | _ => rfl

/-- C8 evaluated: the entry of `cn/gpu` (id 12) after loading `sampleMembers` into a driver
that held 77 everywhere is the same as into a zero driver. -/
theorem read_no_partial_merge_witness :
    (12 : Nat) < sampleEnv.A.MAX ∧
    (read sampleEnv (JsonValue.object sampleMembers) loadedBenchmark).algo_perf 12 =
      (read sampleEnv (JsonValue.object sampleMembers) zeroBenchmark).algo_perf 12 :=
  ⟨by decide,
    (read_no_partial_merge sampleEnv (JsonValue.object sampleMembers) loadedBenchmark
      zeroBenchmark 12 (by decide)).1⟩

/-! ## C9 -/

/-- C9: an entry whose name does not resolve to a valid algorithm, inserted at any position of
the member list, changes nothing in the result of `read()`: the driver after the call
(profile and fresh-run flag included) is the one obtained without that entry, the entries
after it being processed as before. -/
theorem read_skips_unresolvable (E : Env) (pre post : List (String × JsonValue))
    (name : String) (val : JsonValue) (b : Benchmark) (h : E.parse name = none) :
    read E (JsonValue.object (pre ++ (name, val) :: post)) b =
      read E (JsonValue.object (pre ++ post)) b := by
  have hskip : ∀ c : Benchmark, readMember E c (name, val) = c := by
    intro c
    unfold readMember
    simp only [h]
  rw [read_eq, read_eq]
  simp only [JsonValue.members, List.foldl_append, List.foldl_cons, hskip]

/-- C9 evaluated: an unknown name put in front of the good entry of `sampleMembers`. -/
theorem read_skips_unresolvable_witness :
    sampleEnv.parse "no-such-algo" = none ∧
    read sampleEnv (JsonValue.object
        ([] ++ ("no-such-algo", JsonValue.double 9) :: sampleMembers)) zeroBenchmark =
      read sampleEnv (JsonValue.object ([] ++ sampleMembers)) zeroBenchmark :=
  ⟨by decide,
    read_skips_unresolvable sampleEnv [] sampleMembers "no-such-algo" (JsonValue.double 9)
      zeroBenchmark (by decide)⟩

/-! ## C10 -/

/-- C10, as stated, fails: the JSON number 2147483648, an integer that does not fit a 32-bit
`int`, under the resolvable name `cn/r`, is skipped: the profile entry stays 0 and the
fresh-run flag stays true. -/
theorem read_large_integer_skipped :
    sampleEnv.parse "cn/r" = some 3 ∧
    (JsonValue.integer 2147483648).IsNumber = true ∧
    (read sampleEnv (JsonValue.object [("cn/r", JsonValue.integer 2147483648)])
      zeroBenchmark).algo_perf 3 = 0 ∧
    (read sampleEnv (JsonValue.object [("cn/r", JsonValue.integer 2147483648)])
      zeroBenchmark).algo_perf 3 ≠ 2147483648 ∧
    (read sampleEnv (JsonValue.object [("cn/r", JsonValue.integer 2147483648)])
      zeroBenchmark).m_isNewBenchRun = true := by
  have hacc : accepted sampleEnv ("cn/r", JsonValue.integer 2147483648) = false := by decide
  have hperf : (read sampleEnv (JsonValue.object [("cn/r", JsonValue.integer 2147483648)])
      zeroBenchmark).algo_perf 3 = 0 := by
    rw [read_perf sampleEnv _ zeroBenchmark 3 (by decide)]
    rw [lastAccepted_none sampleEnv _ 3 (by
      intro m hm hacc2
      simp only [JsonValue.members, List.mem_singleton] at hm
      rw [hm, hacc] at hacc2
      exact absurd hacc2 (by decide))]
    rfl
  refine ⟨by decide, rfl, hperf, ?_, ?_⟩
  · rw [hperf]
    norm_num
  · rw [read_flag]
    simp [anyAccepted, JsonValue.members, hacc, zeroBenchmark]

/-- C10, amended: for an entry whose name resolves to a valid variant `v`, placed last in the
member list, a value held as a double within the single-precision range, or as an integer
within the range of a 32-bit signed `int`, is accepted: the profile entry of `v` becomes that
number and the fresh-run flag is cleared. A value that passes neither test (a non-number, an
integer outside the 32-bit range, a double outside the single-precision range) is skipped and
the result is the one of the list without the entry. -/
theorem read_number_entry (E : Env) (pre : List (String × JsonValue)) (name : String)
    (val : JsonValue) (v : Nat) (b : Benchmark) (hname : E.parse name = some v) :
    (∀ d : ℚ, val = JsonValue.double d → -floatBound ≤ d → d ≤ floatBound →
      (read E (JsonValue.object (pre ++ [(name, val)])) b).algo_perf v = d ∧
      (read E (JsonValue.object (pre ++ [(name, val)])) b).m_isNewBenchRun = false) ∧
    (∀ i : Int, val = JsonValue.integer i → -2147483648 ≤ i → i ≤ 2147483647 →
      (read E (JsonValue.object (pre ++ [(name, val)])) b).algo_perf v = (i : ℚ) ∧
      (read E (JsonValue.object (pre ++ [(name, val)])) b).m_isNewBenchRun = false) ∧
    (val.IsFloat = false → val.IsInt = false →
      read E (JsonValue.object (pre ++ [(name, val)])) b =
        read E (JsonValue.object pre) b) := by
  have hlast : ∀ c : Benchmark, accepted E (name, val) = true →
      (List.foldl (readMember E) c (pre ++ [(name, val)])).algo_perf v =
        memberValue (name, val) ∧
      (List.foldl (readMember E) c (pre ++ [(name, val)])).m_isNewBenchRun = false := by
    intro c hacc
    rw [List.foldl_append, List.foldl_cons, List.foldl_nil,
      readMember_accepted E _ (name, val) v hname hacc]
    simp
  refine ⟨?_, ?_, ?_⟩
  · intro d hd h1 h2
    subst hd
    have hfl : (JsonValue.double d).IsFloat = true := by simp [JsonValue.IsFloat, h1, h2]
    have hacc : accepted E (name, JsonValue.double d) = true := by simp [accepted, hname, hfl]
    have hval : memberValue (name, JsonValue.double d) = d := by
      simp [memberValue, hfl, JsonValue.GetFloat]
    rw [read_eq]
    simp only [JsonValue.members]
    refine ⟨?_, (hlast _ hacc).2⟩
    rw [(hlast _ hacc).1, hval]
  · intro i hi h1 h2
    subst hi
    have hin : (JsonValue.integer i).IsInt = true := by simp [JsonValue.IsInt, h1, h2]
    have hacc : accepted E (name, JsonValue.integer i) = true := by simp [accepted, hname, hin]
    have hval : memberValue (name, JsonValue.integer i) = (i : ℚ) := by
      simp [memberValue, JsonValue.IsFloat, JsonValue.GetInt]
    rw [read_eq]
    simp only [JsonValue.members]
    refine ⟨?_, (hlast _ hacc).2⟩
    rw [(hlast _ hacc).1, hval]
  · intro hf hi
    have hacc : accepted E (name, val) = false := by simp [accepted, hf, hi]
    rw [read_eq, read_eq]
    simp only [JsonValue.members, List.foldl_append, List.foldl_cons, List.foldl_nil]
    rw [readMember_rejected E _ (name, val) hacc]

/-- C10 amended, evaluated: the integer 7 under the name `rx/0` (id 19). -/
theorem read_number_entry_witness :
    sampleEnv.parse "rx/0" = some 19 ∧
    (read sampleEnv (JsonValue.object (sampleMembers ++ [("rx/0", JsonValue.integer 7)]))
      zeroBenchmark).algo_perf 19 = ((7 : Int) : ℚ) ∧
    (read sampleEnv (JsonValue.object (sampleMembers ++ [("rx/0", JsonValue.integer 7)]))
      zeroBenchmark).m_isNewBenchRun = false :=
  ⟨by decide,
    (read_number_entry sampleEnv sampleMembers "rx/0" (JsonValue.integer 7) 19 zeroBenchmark
      (by decide)).2.1 7 rfl (by decide) (by decide)⟩

/-! ## C11 -/

/-- C11, as stated, fails: in `duplicateMembers` the name `cn/r` resolves to variant 3 and its
second entry carries a string, yet the profile entry of variant 3 after `read()` is 123.5,
the value of the earlier entry, and not 0. -/
theorem read_unsupported_keeps_earlier :
    sampleEnv.parse "cn/r" = some 3 ∧
    (JsonValue.string "fast").IsFloat = false ∧ (JsonValue.string "fast").IsInt = false ∧
    ("cn/r", JsonValue.string "fast") ∈ duplicateMembers ∧
    (read sampleEnv (JsonValue.object duplicateMembers) zeroBenchmark).algo_perf 3 = 247 / 2 ∧
    (read sampleEnv (JsonValue.object duplicateMembers) zeroBenchmark).algo_perf 3 ≠ 0 := by
  have hperf : (read sampleEnv (JsonValue.object duplicateMembers) zeroBenchmark).algo_perf 3 =
      247 / 2 := by
    rw [read_perf sampleEnv _ zeroBenchmark 3 (by decide)]
    have hlast := lastAccepted_last sampleEnv [] [("cn/r", JsonValue.string "fast"),
      ("cn/gpu", JsonValue.integer 40)] ("cn/r", JsonValue.double (247 / 2)) 3
      (by simp [accepted, sampleEnv, sampleNames, JsonValue.IsFloat, floatBound]; norm_num)
      (by decide) (by decide)
    simp only [List.nil_append] at hlast
    show (lastAccepted sampleEnv duplicateMembers 3).getD 0 = 247 / 2
    unfold duplicateMembers
    rw [hlast]
    simp [memberValue, JsonValue.IsFloat, JsonValue.GetFloat, floatBound]
    norm_num
  refine ⟨by decide, rfl, rfl, by simp [duplicateMembers], hperf, ?_⟩
  rw [hperf]
  norm_num

/-- C11, amended: an entry whose name resolves to a valid variant `v` and whose value passes
neither number test is skipped. The result of `read()` is the one for the member list without
that entry, so the entries after it are loaded as before; and the profile entry of `v` is 0
after `read()` when no accepted entry of the list names `v`. -/
theorem read_unsupported_value_skipped (E : Env) (pre post : List (String × JsonValue))
    (name : String) (val : JsonValue) (v : Nat) (b : Benchmark)
    (hname : E.parse name = some v) (hf : val.IsFloat = false) (hi : val.IsInt = false) :
    accepted E (name, val) = false ∧
    E.parse name = some v ∧
    read E (JsonValue.object (pre ++ (name, val) :: post)) b =
      read E (JsonValue.object (pre ++ post)) b ∧
    (v < E.A.MAX → (∀ m ∈ pre ++ post, accepted E m = true → E.parse m.1 ≠ some v) →
      (read E (JsonValue.object (pre ++ (name, val) :: post)) b).algo_perf v = 0) := by
  have hacc : accepted E (name, val) = false := by simp [accepted, hf, hi]
  have hdrop := read_drop_rejected E pre post (name, val) b hacc
  refine ⟨hacc, hname, hdrop, ?_⟩
  intro hv hnone
  rw [hdrop, read_perf E _ b v hv]
  show (lastAccepted E (pre ++ post) v).getD 0 = 0
  rw [lastAccepted_none E (pre ++ post) v hnone]
  rfl

/-- C11 amended, evaluated: the string entry of `cn/gpu` in `sampleMembers` is dropped. -/
theorem read_unsupported_value_skipped_witness :
    sampleEnv.parse "cn/gpu" = some 12 ∧
    (JsonValue.string "fast").IsFloat = false ∧ (JsonValue.string "fast").IsInt = false ∧
    read sampleEnv (JsonValue.object (sampleMembers.take 2 ++
        ("cn/gpu", JsonValue.string "fast") :: [])) zeroBenchmark =
      read sampleEnv (JsonValue.object (sampleMembers.take 2 ++ [])) zeroBenchmark :=
  ⟨by decide, rfl, rfl,
    (read_unsupported_value_skipped sampleEnv (sampleMembers.take 2) [] "cn/gpu"
      (JsonValue.string "fast") 12 zeroBenchmark (by decide) rfl rfl).2.2.1⟩

/-! ## C14 -/

/-- C14: after `start(b)`, from any state, the current benchmark algorithm is `b`, the counter
is 0 and the start time is 0 (unset); the job of `b` has the short name of `b`'s
representative as identity, the fixed blob, target and seed, and keeps its other fields; the
one call made is `setJob` with that job and the flag false; measured rates, profile, fresh-run
flag, the jobs of the other benchmark algorithms and the registered listener are unchanged. -/
theorem start_bench_algo_fresh_round (E : Env) (b : Int) (s : System) :
    (start_bench_algo E b s).bench.m_bench_algo = b ∧
    (start_bench_algo E b s).bench.m_hash_count = 0 ∧
    (start_bench_algo E b s).bench.m_time_start = 0 ∧
    (start_bench_algo E b s).bench.m_bench_job b =
      { nicehash := (s.bench.m_bench_job b).nicehash
        algorithm := (s.bench.m_bench_job b).algorithm
        clientId := (s.bench.m_bench_job b).clientId
        id := E.shortName (E.ba2a b)
        blob := benchBlob
        target := benchTarget
        seedHash := benchSeedHash } ∧
    (start_bench_algo E b s).events = s.events ++
      [Event.enterStart b, Event.setJob ((start_bench_algo E b s).bench.m_bench_job b) false] ∧
    (start_bench_algo E b s).bench.m_bench_algo_perf = s.bench.m_bench_algo_perf ∧
    (start_bench_algo E b s).bench.algo_perf = s.bench.algo_perf ∧
    (start_bench_algo E b s).bench.m_isNewBenchRun = s.bench.m_isNewBenchRun ∧
    (∀ c : Int, c ≠ b →
      (start_bench_algo E b s).bench.m_bench_job c = s.bench.m_bench_job c) ∧
    (start_bench_algo E b s).listener = s.listener := by
  refine ⟨rfl, rfl, rfl, ?_, ?_, rfl, rfl, rfl, ?_, rfl⟩
  · simp [start_bench_algo]
  · simp [start_bench_algo]
  · intro c hc
    simp [start_bench_algo, Function.update_noteq hc]

/-! ## C15 -/

/-- C15: after `finish()`, from any state, the current benchmark algorithm is `INVALID`, the
miner has been told to pause, the network is set and registered as listener and the
controller is started, in this order; measured rates, counter, start time, jobs and fresh-run
flag are unchanged. -/
theorem finish_frame (E : Env) (s : System) :
    (finish E s).bench.m_bench_algo = E.B.INVALID ∧
    (finish E s).events = s.events ++
      [Event.enterFinish, Event.minerPause, Event.setListener Listener.network,
        Event.controllerStart] ∧
    Event.minerPause ∈ (finish E s).events ∧
    (finish E s).listener = Listener.network ∧
    (finish E s).bench.m_bench_algo_perf = s.bench.m_bench_algo_perf ∧
    (finish E s).bench.m_hash_count = s.bench.m_hash_count ∧
    (finish E s).bench.m_time_start = s.bench.m_time_start ∧
    (finish E s).bench.m_bench_job = s.bench.m_bench_job ∧
    (finish E s).bench.m_isNewBenchRun = s.bench.m_isNewBenchRun := by
  refine ⟨rfl, rfl, ?_, rfl, rfl, rfl, rfl, rfl, rfl⟩
  simp [finish]

/-! ## C20 -/

/-- C20: `read()` takes the members in order and, for every variant `v` below
`Algorithm::MAX`, the profile entry afterwards is the stored number of the last accepted
member whose name resolves to `v`: if an accepted member naming `v` is followed only by
members that are rejected or name other variants, the entry is that member's number (a
rejected member naming `v` after it changes nothing); and the entry is 0 when no accepted
member names `v`. -/
theorem read_last_accepted_wins (E : Env) (b : Benchmark) (v : Nat) (hv : v < E.A.MAX) :
    (∀ (pre post : List (String × JsonValue)) (m : String × JsonValue),
      accepted E m = true → E.parse m.1 = some v →
      (∀ x ∈ post, accepted E x = true → E.parse x.1 ≠ some v) →
      (read E (JsonValue.object (pre ++ m :: post)) b).algo_perf v = memberValue m) ∧
    (∀ (pre : List (String × JsonValue)) (m x : String × JsonValue),
      accepted E m = true → E.parse m.1 = some v → accepted E x = false →
      (read E (JsonValue.object (pre ++ [m, x])) b).algo_perf v = memberValue m) ∧
    (∀ members : List (String × JsonValue),
      (∀ x ∈ members, accepted E x = true → E.parse x.1 ≠ some v) →
      (read E (JsonValue.object members) b).algo_perf v = 0) ∧
    (∀ (members : List (String × JsonValue)) (x : String × JsonValue),
      read E (JsonValue.object (members ++ [x])) b =
        readMember E (read E (JsonValue.object members) b) x) := by
  have hmain : ∀ (pre post : List (String × JsonValue)) (m : String × JsonValue),
      accepted E m = true → E.parse m.1 = some v →
      (∀ x ∈ post, accepted E x = true → E.parse x.1 ≠ some v) →
      (read E (JsonValue.object (pre ++ m :: post)) b).algo_perf v = memberValue m := by
    intro pre post m hacc hname hpost
    rw [read_perf E _ b v hv]
    show (lastAccepted E (pre ++ m :: post) v).getD 0 = memberValue m
    rw [lastAccepted_last E pre post m v hacc hname hpost]
    rfl
  refine ⟨hmain, ?_, ?_, ?_⟩
  · intro pre m x hacc hname hx
    refine hmain pre [x] m hacc hname ?_
    intro y hy hyacc
    rw [List.mem_singleton] at hy
    rw [hy, hx] at hyacc
    exact absurd hyacc (by decide)
  · intro members hnone
    rw [read_perf E _ b v hv]
    show (lastAccepted E members v).getD 0 = 0
    rw [lastAccepted_none E members v hnone]
    rfl
  · intro members x
    rw [read_eq, read_eq]
    simp only [JsonValue.members, List.foldl_append, List.foldl_cons, List.foldl_nil]

/-- C20 evaluated on the sample configuration: the entry of `cn/r` (id 3) in
`duplicateMembers` is the number of its first member, the later string being rejected. -/
theorem read_last_accepted_wins_witness :
    (3 : Nat) < sampleEnv.A.MAX ∧
    (read sampleEnv (JsonValue.object
      ([] ++ [("cn/r", JsonValue.double (247 / 2)), ("cn/r", JsonValue.string "fast")]))
      zeroBenchmark).algo_perf 3 = memberValue ("cn/r", JsonValue.double (247 / 2)) :=
  ⟨by decide,
    (read_last_accepted_wins sampleEnv zeroBenchmark 3 (by decide)).2.1 []
      ("cn/r", JsonValue.double (247 / 2)) ("cn/r", JsonValue.string "fast")
      (by simp [accepted, sampleEnv, sampleNames, JsonValue.IsFloat, floatBound]; norm_num)
      (by decide) (by decide)⟩

/-! ## C12 -/

/-- C12: when the case labels of the switch are pairwise distinct and the representative of
each of the ten benchmark algorithms is the variant of the same name, `get_algo_perf` of the
representative of a benchmark algorithm is that algorithm's measured rate, with no
multiplier, for all measured rates. -/
theorem representative_scale_one (E : Env) (hd : (caseLabels E.A).Nodup)
    (hrep : SameNameRepresentatives E) (rate : Int → ℚ) :
    get_algo_perf E.A E.B rate (E.ba2a E.B.CN_R) = rate E.B.CN_R ∧
    get_algo_perf E.A E.B rate (E.ba2a E.B.CN_GPU) = rate E.B.CN_GPU ∧
    get_algo_perf E.A E.B rate (E.ba2a E.B.CN_LITE_1) = rate E.B.CN_LITE_1 ∧
    get_algo_perf E.A E.B rate (E.ba2a E.B.CN_HEAVY_TUBE) = rate E.B.CN_HEAVY_TUBE ∧
    get_algo_perf E.A E.B rate (E.ba2a E.B.CN_PICO_0) = rate E.B.CN_PICO_0 ∧
    get_algo_perf E.A E.B rate (E.ba2a E.B.RX_LOKI) = rate E.B.RX_LOKI ∧
    get_algo_perf E.A E.B rate (E.ba2a E.B.RX_WOW) = rate E.B.RX_WOW ∧
    get_algo_perf E.A E.B rate (E.ba2a E.B.DEFYX) = rate E.B.DEFYX ∧
    get_algo_perf E.A E.B rate (E.ba2a E.B.AR2_CHUKWA) = rate E.B.AR2_CHUKWA ∧
    get_algo_perf E.A E.B rate (E.ba2a E.B.AR2_WRKZ) = rate E.B.AR2_WRKZ := by
  obtain ⟨r1, r2, r3, r4, r5, r6, r7, r8, r9, r10⟩ := hrep
  rw [r1, r2, r3, r4, r5, r6, r7, r8, r9, r10]
  exact ⟨get_algo_perf_CN_R E.A E.B rate hd, get_algo_perf_CN_GPU E.A E.B rate hd,
    get_algo_perf_CN_LITE_1 E.A E.B rate hd, get_algo_perf_CN_HEAVY_TUBE E.A E.B rate hd,
    get_algo_perf_CN_PICO_0 E.A E.B rate hd, get_algo_perf_RX_LOKI E.A E.B rate hd,
    get_algo_perf_RX_WOW E.A E.B rate hd, get_algo_perf_DEFYX E.A E.B rate hd,
    get_algo_perf_AR2_CHUKWA E.A E.B rate hd, get_algo_perf_AR2_WRKZ E.A E.B rate hd⟩

/-- C12 evaluated on the sample configuration, for `rx/loki` with all rates equal to 5. -/
theorem representative_scale_one_witness :
    (caseLabels sampleEnv.A).Nodup ∧ SameNameRepresentatives sampleEnv ∧
    get_algo_perf sampleEnv.A sampleEnv.B (fun _ => 5) (sampleEnv.ba2a sampleEnv.B.RX_LOKI) =
      (fun _ => (5 : ℚ)) sampleEnv.B.RX_LOKI :=
  ⟨by decide, by decide,
    (representative_scale_one sampleEnv (by decide) (by decide)
      (fun _ => 5)).2.2.2.2.2.1⟩

/-! ## C16 -/

/-- C16, as stated, fails for the multiplier 3/4: in the sample configuration no variant `v`
and benchmark algorithm `b` satisfy `get_algo_perf(v) = 3/4 × measured_rate[b]` for all
measured rates. -/
theorem no_variant_scaled_three_quarters :
    ¬ ∃ (v : Nat) (b : Int), ∀ rate : Int → ℚ,
      get_algo_perf sampleEnv.A sampleEnv.B rate v = 3 / 4 * rate b := by
  rintro ⟨v, b, h⟩
  exact get_algo_perf_not_three_quarters sampleEnv.A sampleEnv.B v b h

/-- C16, amended: with pairwise distinct case labels, each of the multipliers 1, 2, 4/3 and
1/2 is used by the table (by `CN_0`, `CN_FAST`, `CN_RWZ` and `CN_DOUBLE`, all on the rate of
`CN_R`; `CN_RWZ` is computed as `rate / 3 * 4`), and the multiplier 3/4 is used by no
variant. -/
theorem table_scales_used (E : Env) (hd : (caseLabels E.A).Nodup) :
    (∃ (v : Nat) (b : Int), ∀ rate : Int → ℚ,
      get_algo_perf E.A E.B rate v = 1 * rate b) ∧
    (∃ (v : Nat) (b : Int), ∀ rate : Int → ℚ,
      get_algo_perf E.A E.B rate v = 2 * rate b) ∧
    (∃ (v : Nat) (b : Int), ∀ rate : Int → ℚ,
      get_algo_perf E.A E.B rate v = 4 / 3 * rate b) ∧
    (∃ (v : Nat) (b : Int), ∀ rate : Int → ℚ,
      get_algo_perf E.A E.B rate v = 1 / 2 * rate b) ∧
    (¬ ∃ (v : Nat) (b : Int), ∀ rate : Int → ℚ,
      get_algo_perf E.A E.B rate v = 3 / 4 * rate b) := by
  refine ⟨⟨E.A.CN_0, E.B.CN_R, ?_⟩, ⟨E.A.CN_FAST, E.B.CN_R, ?_⟩, ⟨E.A.CN_RWZ, E.B.CN_R, ?_⟩,
    ⟨E.A.CN_DOUBLE, E.B.CN_R, ?_⟩, ?_⟩
  · intro rate
    rw [get_algo_perf_CN_0, one_mul]
  · intro rate
    rw [get_algo_perf_CN_FAST E.A E.B rate hd]
    ring
  · intro rate
    rw [get_algo_perf_CN_RWZ E.A E.B rate hd]
    ring
  · intro rate
    rw [get_algo_perf_CN_DOUBLE E.A E.B rate hd]
    ring
  · rintro ⟨v, b, h⟩
    exact get_algo_perf_not_three_quarters E.A E.B v b h

/-- C16 amended, evaluated on the sample configuration: the multiplier 4/3 is used. -/
theorem table_scales_used_witness :
    (caseLabels sampleEnv.A).Nodup ∧
    ∃ (v : Nat) (b : Int), ∀ rate : Int → ℚ,
      get_algo_perf sampleEnv.A sampleEnv.B rate v = 4 / 3 * rate b :=
  ⟨by decide, (table_scales_used sampleEnv (by decide)).2.2.1⟩

/-! ## C17 -/

/-- C17: for a variant id that is none of the 24 case labels, `get_algo_perf` is 0 for all
measured rates (non-zero ones included), and `finish()` writes 0 into its profile entry when
the id is below `Algorithm::MAX`. -/
theorem unlisted_variant_zero (E : Env) (v : Nat) (hv : v ∉ caseLabels E.A) (s : System) :
    (∀ rate : Int → ℚ, get_algo_perf E.A E.B rate v = 0) ∧
    (v < E.A.MAX → (finish E s).bench.algo_perf v = 0) := by
  refine ⟨fun rate => get_algo_perf_unlisted E.A E.B rate v hv, fun hmax => ?_⟩
  rw [finish_algo_perf E s v hmax]
  exact get_algo_perf_unlisted E.A E.B _ v hv

/-- C17 evaluated: `rx/0` (id 19) of the sample configuration, all measured rates being 500. -/
theorem unlisted_variant_zero_witness :
    (19 : Nat) ∉ caseLabels sampleEnv.A ∧ (19 : Nat) < sampleEnv.A.MAX ∧
    get_algo_perf sampleEnv.A sampleEnv.B (fun _ => 500) 19 = 0 ∧
    (finish sampleEnv
      { zeroSystem with bench := { zeroBenchmark with m_bench_algo_perf := fun _ => 500 } }
      ).bench.algo_perf 19 = 0 :=
  ⟨by decide, by decide,
    (unlisted_variant_zero sampleEnv 19 (by decide) zeroSystem).1 (fun _ => 500),
    (unlisted_variant_zero sampleEnv 19 (by decide)
      { zeroSystem with bench := { zeroBenchmark with m_bench_algo_perf := fun _ => 500 } }
      ).2 (by decide)⟩

/-! ## C13 -/

/-- C13: for a counted signal, (1) when the start time is unset the signal sets it to `now`,
counts one unit and does nothing else: no call is made and no rate is stored; (2) when the
start time is set, the round ends (calls are made) exactly when the 64-bit difference
`now − m_time_start` is strictly greater than the limit `unsigned(benchAlgoTime × 1000)`;
(3) that limit is `benchAlgoTime × 1000` for a non-negative `benchAlgoTime` whose product
fits 32 bits; (4) whenever the round ends, for any `benchAlgoTime`, the start time is set, the
divisor `now − m_time_start` of the stored rate is at least 1. -/
theorem round_end_timing (E : Env) (now : Nat) (result : JobResult) (s : System)
    (hc : Counted E result s) :
    (s.bench.m_time_start = 0 →
      onJobResult E now result s =
        { s with
          bench :=
            { s.bench with
              m_hash_count := (s.bench.m_hash_count + 1) % 2 ^ 64
              m_time_start := now } }) ∧
    (s.bench.m_time_start ≠ 0 →
      ((onJobResult E now result s).events ≠ s.events ↔
        elapsed now s.bench.m_time_start > roundLimit E)) ∧
    (0 ≤ E.benchAlgoTime → E.benchAlgoTime * 1000 < 2 ^ 32 →
      (roundLimit E : Int) = E.benchAlgoTime * 1000) ∧
    ((onJobResult E now result s).events ≠ s.events →
      s.bench.m_time_start ≠ 0 ∧ 1 ≤ elapsed now s.bench.m_time_start ∧
      (onJobResult E now result s).bench.m_bench_algo_perf s.bench.m_bench_algo =
        hashrate ((s.bench.m_hash_count + 1) % 2 ^ 64) result.diff
          (elapsed now s.bench.m_time_start)) := by
  have hiff : s.bench.m_time_start ≠ 0 →
      ((onJobResult E now result s).events ≠ s.events ↔
        elapsed now s.bench.m_time_start > roundLimit E) := by
    intro h0
    constructor
    · intro hev
      by_contra hle
      rw [onJobResult_within E now result s hc h0 hle] at hev
      exact hev rfl
    · exact onJobResult_roundEnd_events E now result s hc h0
  refine ⟨onJobResult_first E now result s hc, hiff, roundLimit_eq E, ?_⟩
  intro hev
  have h0 : s.bench.m_time_start ≠ 0 := by
    intro hz
    rw [onJobResult_first E now result s hc hz] at hev
    exact hev rfl
  have hgt := (hiff h0).mp hev
  exact ⟨h0, by omega, onJobResult_roundEnd_rate E now result s hc h0 hgt⟩

/-- C13 evaluated: in `midRound` (start time 1000, one-second rounds) a signal of `cn/r` at
clock 2000 does not end the round. -/
theorem round_end_timing_witness :
    Counted sampleEnv cnrResult midRound ∧ midRound.bench.m_time_start ≠ 0 ∧
    ((onJobResult sampleEnv 2000 cnrResult midRound).events ≠ midRound.events ↔
      elapsed 2000 midRound.bench.m_time_start > roundLimit sampleEnv) ∧
    ¬ (elapsed 2000 midRound.bench.m_time_start > roundLimit sampleEnv) :=
  ⟨by decide, by decide,
    (round_end_timing sampleEnv 2000 cnrResult midRound (by decide)).2.1 (by decide),
    by decide⟩

/-! ## C18 -/

/-- C18: take the state left by `start(b)` and hand signals with non-zero clock readings to
`onJobResult`. As long as none of them meets the round-end test, the counter is the
number of accepted signals (modulo `2^64`, the width of the counter). If the next signal
then ends the round, the rate stored for `b` is
`(accepted signals so far + 1) × (diff of that last signal) × 1000 / (its clock reading − the
clock reading of the first accepted signal)`, the difference being the 64-bit one. -/
theorem round_counter_and_rate (E : Env) (b : Int) (s0 : System)
    (signals : List (Nat × JobResult)) (last : Nat × JobResult)
    (hclock : ∀ sig ∈ signals, sig.1 ≠ 0)
    (hopen : roundStaysOpen E (start_bench_algo E b s0) signals = true) :
    (runSignals E (start_bench_algo E b s0) signals).bench.m_hash_count =
      (acceptedSignals E (start_bench_algo E b s0) signals).length % 2 ^ 64 ∧
    ((acceptedSignals E (start_bench_algo E b s0) signals).length < 2 ^ 64 →
      (runSignals E (start_bench_algo E b s0) signals).bench.m_hash_count =
        (acceptedSignals E (start_bench_algo E b s0) signals).length) ∧
    (EndsRound E last.1 last.2 (runSignals E (start_bench_algo E b s0) signals) →
      (onJobResult E last.1 last.2
          (runSignals E (start_bench_algo E b s0) signals)).bench.m_bench_algo_perf b =
        ((((acceptedSignals E (start_bench_algo E b s0) signals).length + 1) % 2 ^ 64 : Nat) : ℚ)
          * (last.2.diff : ℚ) * 1000 /
          ((elapsed last.1
            (firstTime (acceptedSignals E (start_bench_algo E b s0) signals)) : Nat) : ℚ)) := by
  have hst := round_open_state E signals (start_bench_algo E b s0)
    (by simp [start_bench_algo]) hclock hopen
  obtain ⟨halgo, hcnt, htime, _⟩ := hst
  have hcnt2 : (runSignals E (start_bench_algo E b s0) signals).bench.m_hash_count =
      (acceptedSignals E (start_bench_algo E b s0) signals).length % 2 ^ 64 := by
    rw [hcnt]
    simp [start_bench_algo]
  have htime2 : (runSignals E (start_bench_algo E b s0) signals).bench.m_time_start =
      firstTime (acceptedSignals E (start_bench_algo E b s0) signals) := by
    rw [htime]
    simp [start_bench_algo]
  have halgo2 : (runSignals E (start_bench_algo E b s0) signals).bench.m_bench_algo = b := by
    rw [halgo]
    rfl
  refine ⟨hcnt2, ?_, ?_⟩
  · intro hlt
    rw [hcnt2]
    exact Nat.mod_eq_of_lt hlt
  · intro hend
    have hrate := onJobResult_roundEnd_rate E last.1 last.2 _ hend.1 hend.2.1 hend.2.2
    rw [halgo2, hcnt2, htime2, hashrate_eq] at hrate
    rw [hrate]
    congr 4
    omega

/-- C18 evaluated: after `start(0)` of the sample configuration, two accepted signals (at 1000
and 1500) and a stale one, the counter is 2. -/
theorem round_counter_and_rate_witness :
    (∀ sig ∈ roundSignals.take 3, sig.1 ≠ 0) ∧
    roundStaysOpen sampleEnv (start_bench_algo sampleEnv 0 zeroSystem)
      (roundSignals.take 3) = true ∧
    (acceptedSignals sampleEnv (start_bench_algo sampleEnv 0 zeroSystem)
      (roundSignals.take 3)).length = 2 ∧
    (runSignals sampleEnv (start_bench_algo sampleEnv 0 zeroSystem)
      (roundSignals.take 3)).bench.m_hash_count =
      (acceptedSignals sampleEnv (start_bench_algo sampleEnv 0 zeroSystem)
        (roundSignals.take 3)).length % 2 ^ 64 :=
  ⟨by decide, by decide, by decide,
    (round_counter_and_rate sampleEnv 0 zeroSystem (roundSignals.take 3) (2001, cnrResult)
      (by decide) (by decide)).1⟩

/-! ## C19 -/

/-- C19: with `MIN < MAX`, in every state reached from `start()` by calls of `onJobResult`
the current benchmark algorithm is `INVALID` or lies in `MIN ≤ b < MAX`; and for every further
signal, each index with which `onJobResult` and the `start(bench_algo)` it calls subscript
`ba2a`, `m_bench_algo_perf` and `m_bench_job` lies in `MIN ≤ i < MAX`, hence inside the arrays
of length `MAX` when `MIN` is not negative; no array is subscripted when the current
benchmark algorithm is `INVALID`. -/
theorem bench_algo_in_range (E : Env) (hmin : E.B.MIN < E.B.MAX) (s0 : System)
    (signals : List (Nat × JobResult)) :
    ((calibrationRun E s0 signals).bench.m_bench_algo = E.B.INVALID ∨
      (E.B.MIN ≤ (calibrationRun E s0 signals).bench.m_bench_algo ∧
        (calibrationRun E s0 signals).bench.m_bench_algo < E.B.MAX)) ∧
    (∀ (now : Nat) (result : JobResult),
      ∀ i ∈ arrayIndices E now result (calibrationRun E s0 signals),
        E.B.MIN ≤ i ∧ i < E.B.MAX ∧ (0 ≤ E.B.MIN → 0 ≤ i)) ∧
    (∀ (now : Nat) (result : JobResult),
      (calibrationRun E s0 signals).bench.m_bench_algo = E.B.INVALID →
        arrayIndices E now result (calibrationRun E s0 signals) = []) := by
  have hinv : SequencingInv E (calibrationRun E s0 signals) :=
    sequencingInv_runSignals E signals _ (sequencingInv_start E hmin s0)
  have hrange : (calibrationRun E s0 signals).bench.m_bench_algo = E.B.INVALID ∨
      (E.B.MIN ≤ (calibrationRun E s0 signals).bench.m_bench_algo ∧
        (calibrationRun E s0 signals).bench.m_bench_algo < E.B.MAX) := by
    rcases hinv with ⟨k, hk, hcur, hlt, _, _⟩ | ⟨hinvalid, _⟩
    · right
      exact ⟨by omega, hlt⟩
    · left
      exact hinvalid
  refine ⟨hrange, ?_, ?_⟩
  · intro now result i hi
    unfold arrayIndices at hi
    by_cases hc : result.clientId ≠ "benchmark"
    · rw [if_pos hc] at hi
      exact absurd hi (List.not_mem_nil i)
    rw [if_neg hc] at hi
    by_cases hinvalid : (calibrationRun E s0 signals).bench.m_bench_algo = E.B.INVALID
    · rw [if_pos hinvalid] at hi
      exact absurd hi (List.not_mem_nil i)
    rw [if_neg hinvalid] at hi
    have hb : E.B.MIN ≤ (calibrationRun E s0 signals).bench.m_bench_algo ∧
        (calibrationRun E s0 signals).bench.m_bench_algo < E.B.MAX := by
      rcases hrange with h | h
      · exact absurd h hinvalid
      · exact h
    have hcur : i = (calibrationRun E s0 signals).bench.m_bench_algo →
        E.B.MIN ≤ i ∧ i < E.B.MAX ∧ (0 ≤ E.B.MIN → 0 ≤ i) := by
      intro hi2
      rw [hi2]
      exact ⟨hb.1, hb.2, fun h0 => le_trans h0 hb.1⟩
    split_ifs at hi with h1 h2 h3 h4
    · exact hcur (List.mem_singleton.mp hi)
    · exact hcur (List.mem_singleton.mp hi)
    · rcases List.mem_cons.mp hi with h | h
      · exact hcur h
      · rw [List.mem_singleton.mp h]
        exact ⟨by omega, by omega, fun h0 => by omega⟩
    · exact hcur (List.mem_singleton.mp hi)
    · exact hcur (List.mem_singleton.mp hi)
  · intro now result hinvalid
    unfold arrayIndices
    by_cases hc : result.clientId ≠ "benchmark"
    · rw [if_pos hc]
    · rw [if_neg hc, if_pos hinvalid]

/-- C19 evaluated on the sample configuration after `sampleSignals`. -/
theorem bench_algo_in_range_witness :
    sampleEnv.B.MIN < sampleEnv.B.MAX ∧
    ((calibrationRun sampleEnv zeroSystem sampleSignals).bench.m_bench_algo =
        sampleEnv.B.INVALID ∨
      (sampleEnv.B.MIN ≤ (calibrationRun sampleEnv zeroSystem sampleSignals).bench.m_bench_algo ∧
        (calibrationRun sampleEnv zeroSystem sampleSignals).bench.m_bench_algo <
          sampleEnv.B.MAX)) :=
  ⟨by decide, (bench_algo_in_range sampleEnv (by decide) zeroSystem sampleSignals).1⟩

end xmrig
